import Mathlib

/-!
Verification of the cyber-resilience analyzer core (detector, correlator,
metrics engine, policy engine) against its natural-language specification.

The Python source is shallowly embedded: numeric values (floats in the
source) are modelled as exact rationals `ℚ`, ISO-8601 timestamps at second
precision as rational epoch seconds, Python dicts as insertion-ordered
association lists, and Python's stable `sorted`/`list.sort` as a stable
insertion sort on the same key.  Python's `round` is banker's rounding
(round-half-to-even), modelled exactly by `rhe` below.  `strftime` at
second precision truncates the sub-second part, modelled by `Int.floor`.
-/

namespace SmartEnergy

/-! ## Rounding: Python `round` (half-to-even) -/

/-- Python `round(q)` — round half to even, exact on rationals. -/
def rhe (q : ℚ) : ℤ :=
  if q - ⌊q⌋ < 1/2 then ⌊q⌋
  else if 1/2 < q - ⌊q⌋ then ⌊q⌋ + 1
  else if 2 ∣ ⌊q⌋ then ⌊q⌋ else ⌊q⌋ + 1

/-- Python `round(q, n)` — round to `n` decimal places, half to even. -/
def roundTo (n : ℕ) (q : ℚ) : ℚ := (rhe (q * 10 ^ n) : ℚ) / 10 ^ n

theorem rhe_eq_floor_or_ceil (q : ℚ) : rhe q = ⌊q⌋ ∨ rhe q = ⌊q⌋ + 1 := by
  unfold rhe
  split
  · exact Or.inl rfl
  split
  · exact Or.inr rfl
  split
  · exact Or.inl rfl
  · exact Or.inr rfl

theorem floor_le_rhe (q : ℚ) : ⌊q⌋ ≤ rhe q := by
  rcases rhe_eq_floor_or_ceil q with h | h <;> omega

theorem rhe_le_floor_add_one (q : ℚ) : rhe q ≤ ⌊q⌋ + 1 := by
  rcases rhe_eq_floor_or_ceil q with h | h <;> omega

theorem rhe_of_lt_half {q : ℚ} (h : q - ⌊q⌋ < 1/2) : rhe q = ⌊q⌋ := by
  unfold rhe
  rw [if_pos h]

theorem rhe_of_half_lt {q : ℚ} (h : 1/2 < q - ⌊q⌋) : rhe q = ⌊q⌋ + 1 := by
  unfold rhe
  rw [if_neg (by linarith), if_pos h]

theorem rhe_mono {x y : ℚ} (h : x ≤ y) : rhe x ≤ rhe y := by
  rcases lt_or_eq_of_le (Int.floor_mono h) with hf | hf
  · calc rhe x ≤ ⌊x⌋ + 1 := rhe_le_floor_add_one x
      _ ≤ ⌊y⌋ := by omega
      _ ≤ rhe y := floor_le_rhe y
  · by_cases hx : x - ⌊x⌋ < 1/2
    · rw [rhe_of_lt_half hx, hf]
      exact floor_le_rhe y
    · push_neg at hx
      by_cases hy : 1/2 < y - ⌊y⌋
      · rw [rhe_of_half_lt hy, ← hf]
        exact rhe_le_floor_add_one x
      · push_neg at hy
        have hxy : x = y := by
          have h1 : x - (⌊x⌋ : ℚ) ≤ y - (⌊y⌋ : ℚ) := by
            rw [hf]; linarith
          have h2 : y - (⌊y⌋ : ℚ) ≤ 1/2 := hy
          have h3 : (1 : ℚ)/2 ≤ x - ⌊x⌋ := hx
          have h4 : x - (⌊x⌋ : ℚ) = 1/2 := le_antisymm (h1.trans h2) h3
          have h5 : y - (⌊y⌋ : ℚ) = 1/2 := le_antisymm h2 (h3.trans h1)
          have := hf
          have hqx : x = (⌊x⌋ : ℚ) + 1/2 := by linarith
          have hqy : y = (⌊y⌋ : ℚ) + 1/2 := by linarith
          rw [hqx, hqy, hf]
        rw [hxy]

theorem roundTo_mono (n : ℕ) {x y : ℚ} (h : x ≤ y) : roundTo n x ≤ roundTo n y := by
  unfold roundTo
  have h10 : (0 : ℚ) < 10 ^ n := by positivity
  have hm : x * 10 ^ n ≤ y * 10 ^ n :=
    mul_le_mul_of_nonneg_right h (le_of_lt h10)
  have hr : ((rhe (x * 10 ^ n) : ℤ) : ℚ) ≤ ((rhe (y * 10 ^ n) : ℤ) : ℚ) := by
    exact_mod_cast rhe_mono hm
  gcongr

theorem rhe_intCast (z : ℤ) : rhe (z : ℚ) = z := by
  unfold rhe
  rw [Int.floor_intCast]
  rw [sub_self]
  norm_num

theorem roundTo_intCast (n : ℕ) (z : ℤ) : roundTo n (z : ℚ) = z := by
  unfold roundTo
  have h10 : ((10 : ℚ) ^ n) ≠ 0 := by positivity
  have hc : (z : ℚ) * 10 ^ n = ((z * 10 ^ n : ℤ) : ℚ) := by push_cast; ring
  rw [hc, rhe_intCast]
  push_cast
  field_simp

theorem roundTo_zero (n : ℕ) : roundTo n 0 = 0 := by
  have := roundTo_intCast n 0
  simpa using this

theorem roundTo_nonneg (n : ℕ) {q : ℚ} (h : 0 ≤ q) : 0 ≤ roundTo n q := by
  have := roundTo_mono n h
  rwa [roundTo_zero] at this

/-! ## Stable sort (Python `sorted` / `list.sort`)

Python's sort is stable.  A stable sort by a key is extensionally determined
by the key order, so we model it with a stable insertion sort: each element
is inserted after every already-placed element whose key is `≤` its own. -/

def insertOrd (le : α → α → Bool) (x : α) : List α → List α
  | [] => [x]
  | y :: ys => if le y x then y :: insertOrd le x ys else x :: y :: ys

def stableSort (le : α → α → Bool) (l : List α) : List α :=
  l.foldl (fun acc x => insertOrd le x acc) []

theorem insertOrd_perm (le : α → α → Bool) (x : α) (l : List α) :
    List.Perm (insertOrd le x l) (x :: l) := by
  induction l with
  | nil => simp [insertOrd]
  | cons y ys ih =>
    unfold insertOrd
    split
    · exact (ih.cons y).trans (List.Perm.swap x y ys)
    · exact List.Perm.refl _

theorem stableSort_perm (le : α → α → Bool) (l : List α) :
    List.Perm (stableSort le l) l := by
  suffices h : ∀ (l acc : List α),
      List.Perm (l.foldl (fun acc x => insertOrd le x acc) acc) (acc ++ l) by
    simpa using h l []
  intro l
  induction l with
  | nil => intro acc; simp
  | cons x xs ih =>
    intro acc
    simp only [List.foldl_cons]
    have h1 := ih (insertOrd le x acc)
    have h2 : List.Perm (insertOrd le x acc ++ xs) ((x :: acc) ++ xs) :=
      (insertOrd_perm le x acc).append_right xs
    have h3 : List.Perm ((x :: acc) ++ xs) (acc ++ x :: xs) :=
      List.perm_middle.symm
    exact (h1.trans h2).trans h3

theorem mem_stableSort (le : α → α → Bool) (l : List α) (x : α) :
    x ∈ stableSort le l ↔ x ∈ l :=
  (stableSort_perm le l).mem_iff

theorem length_stableSort (le : α → α → Bool) (l : List α) :
    (stableSort le l).length = l.length :=
  (stableSort_perm le l).length_eq

theorem insertOrd_head_cases (le : α → α → Bool) (x : α) (l : List α) :
    insertOrd le x l = x :: l ∨
    ∃ z zs, l = z :: zs ∧ insertOrd le x l = z :: insertOrd le x zs ∧ le z x = true := by
  cases l with
  | nil => exact Or.inl rfl
  | cons z zs =>
    by_cases h : le z x
    · exact Or.inr ⟨z, zs, rfl, by simp [insertOrd, h], h⟩
    · left
      simp [insertOrd, h]

theorem insertOrd_chain (le : α → α → Bool)
    (htot : ∀ a b, le a b = true ∨ le b a = true) (x : α) (l : List α)
    (hl : List.Chain' (fun a b => le a b = true) l) :
    List.Chain' (fun a b => le a b = true) (insertOrd le x l) := by
  induction l with
  | nil => simp [insertOrd]
  | cons y ys ih =>
    by_cases hyx : le y x
    · have heq : insertOrd le x (y :: ys) = y :: insertOrd le x ys := by
        simp [insertOrd, hyx]
      rw [heq]
      rw [List.chain'_cons']
      refine ⟨?_, ih hl.tail⟩
      intro b hb
      rcases insertOrd_head_cases le x ys with hc | ⟨z, zs, hzs, hc, _⟩
      · rw [hc] at hb
        simp only [List.head?_cons, Option.mem_def, Option.some.injEq] at hb
        rw [← hb]
        exact hyx
      · rw [hc] at hb
        simp only [List.head?_cons, Option.mem_def, Option.some.injEq] at hb
        rw [← hb]
        have := (List.chain'_cons.mp (hzs ▸ hl)).1
        exact this
    · have heq : insertOrd le x (y :: ys) = x :: y :: ys := by
        simp [insertOrd, hyx]
      rw [heq]
      refine List.chain'_cons.mpr ⟨?_, hl⟩
      rcases htot x y with h | h
      · exact h
      · exact absurd h (by simpa using hyx)

theorem stableSort_chain (le : α → α → Bool)
    (htot : ∀ a b, le a b = true ∨ le b a = true) (l : List α) :
    List.Chain' (fun a b => le a b = true) (stableSort le l) := by
  suffices h : ∀ (l acc : List α), List.Chain' (fun a b => le a b = true) acc →
      List.Chain' (fun a b => le a b = true)
        (l.foldl (fun acc x => insertOrd le x acc) acc) by
    exact h l [] (by simp)
  intro l
  induction l with
  | nil => intro acc hacc; simpa using hacc
  | cons x xs ih =>
    intro acc hacc
    exact ih _ (insertOrd_chain le htot x acc hacc)

theorem insertOrd_append (le : α → α → Bool) (x : α) (l : List α)
    (h : ∀ y ∈ l, le y x = true) : insertOrd le x l = l ++ [x] := by
  induction l with
  | nil => rfl
  | cons y ys ih =>
    unfold insertOrd
    rw [if_pos (h y (by simp)), ih (fun z hz => h z (by simp [hz]))]
    rfl

/-- Sorting a list that is already a `≤`-chain is the identity
(the key fact behind idempotence of the interval merge). -/
theorem stableSort_of_chain (le : α → α → Bool)
    (htrans : ∀ a b c, le a b = true → le b c = true → le a c = true)
    (l : List α) (hl : List.Chain' (fun a b => le a b = true) l) :
    stableSort le l = l := by
  haveI : IsTrans α (fun a b => le a b = true) :=
    ⟨fun a b c hab hbc => htrans a b c hab hbc⟩
  suffices h : ∀ (l acc : List α),
      List.Pairwise (fun a b => le a b = true) (acc ++ l) →
      l.foldl (fun acc x => insertOrd le x acc) acc = acc ++ l by
    apply h l []
    simpa using List.chain'_iff_pairwise.mp hl
  intro l
  induction l with
  | nil => intro acc _; simp
  | cons x xs ih =>
    intro acc hacc
    simp only [List.foldl_cons]
    have hx : ∀ y ∈ acc, le y x = true := by
      intro y hy
      exact (List.pairwise_append.mp hacc).2.2 y hy x (by simp)
    rw [insertOrd_append le x acc hx]
    have hmv : (acc ++ [x]) ++ xs = acc ++ x :: xs := by simp
    rw [ih (acc ++ [x]) (by rw [hmv]; exact hacc)]
    simp

/-! ## Interval merge — `_merge_intervals` in `src/analyzer/metrics.py`

```python
if not intervals: return []
sorted_iv = sorted(intervals, key=lambda x: x[0])
merged = [sorted_iv[0]]
for start, end in sorted_iv[1:]:
    if start <= merged[-1][1]:
        merged[-1] = (merged[-1][0], max(merged[-1][1], end))
    else:
        merged.append((start, end))
return merged
```
-/

def leStart (a b : ℚ × ℚ) : Bool := decide (a.1 ≤ b.1)

def mergeLoop : (ℚ × ℚ) → List (ℚ × ℚ) → List (ℚ × ℚ)
  | cur, [] => [cur]
  | cur, (s, e) :: rest =>
    if s ≤ cur.2 then mergeLoop (cur.1, max cur.2 e) rest
    else cur :: mergeLoop (s, e) rest

def merge_intervals (intervals : List (ℚ × ℚ)) : List (ℚ × ℚ) :=
  match stableSort leStart intervals with
  | [] => []
  | h :: t => mergeLoop h t

/-- Adjacent-gap relation on merged output: next start strictly after current end. -/
def gapRel (a b : ℚ × ℚ) : Prop := a.2 < b.1

theorem mergeLoop_head_start (cur : ℚ × ℚ) (rest : List (ℚ × ℚ)) :
    ∃ c t, mergeLoop cur rest = (cur.1, c) :: t := by
  induction rest generalizing cur with
  | nil => exact ⟨cur.2, [], rfl⟩
  | cons p rest ih =>
    obtain ⟨s, e⟩ := p
    unfold mergeLoop
    split
    · obtain ⟨c, t, h⟩ := ih (cur.1, max cur.2 e)
      exact ⟨c, t, h⟩
    · exact ⟨cur.2, mergeLoop (s, e) rest, rfl⟩

theorem mergeLoop_chains (cur : ℚ × ℚ) (rest : List (ℚ × ℚ))
    (h : List.Chain' (fun a b => leStart a b = true) (cur :: rest)) :
    List.Chain' (fun a b => leStart a b = true) (mergeLoop cur rest) ∧
    List.Chain' gapRel (mergeLoop cur rest) := by
  induction rest generalizing cur with
  | nil => exact ⟨List.chain'_singleton _, List.chain'_singleton _⟩
  | cons p rest ih =>
    obtain ⟨s, e⟩ := p
    have hcs : cur.1 ≤ s := by
      have := (List.chain'_cons.mp h).1
      simpa [leStart] using this
    have htail : List.Chain' (fun a b => leStart a b = true) ((s, e) :: rest) :=
      (List.chain'_cons.mp h).2
    unfold mergeLoop
    split
    · -- merge: new current interval (cur.1, max cur.2 e)
      apply ih (cur.1, max cur.2 e)
      cases rest with
      | nil => simp
      | cons q rest' =>
        refine List.chain'_cons.mpr ⟨?_, (List.chain'_cons.mp htail).2⟩
        have hsq : s ≤ q.1 := by
          have := (List.chain'_cons.mp htail).1
          simpa [leStart] using this
        simp only [leStart, decide_eq_true_eq]
        exact le_trans hcs hsq
    · -- emit cur, continue from (s, e)
      rename_i hgt
      push_neg at hgt
      obtain ⟨hc1, hc2⟩ := ih (s, e) htail
      obtain ⟨c, t, heq⟩ := mergeLoop_head_start (s, e) rest
      constructor
      · rw [heq] at hc1 ⊢
        exact List.chain'_cons.mpr ⟨by simpa [leStart] using hcs, hc1⟩
      · rw [heq] at hc2 ⊢
        exact List.chain'_cons.mpr ⟨hgt, hc2⟩

theorem mergeLoop_of_gaps (cur : ℚ × ℚ) (rest : List (ℚ × ℚ))
    (h : List.Chain' gapRel (cur :: rest)) : mergeLoop cur rest = cur :: rest := by
  induction rest generalizing cur with
  | nil => rfl
  | cons p rest ih =>
    obtain ⟨s, e⟩ := p
    have hgap : cur.2 < s := (List.chain'_cons.mp h).1
    unfold mergeLoop
    rw [if_neg (by push_neg; exact hgap)]
    rw [ih (s, e) (List.chain'_cons.mp h).2]

theorem leStart_total : ∀ a b : ℚ × ℚ, leStart a b = true ∨ leStart b a = true := by
  intro a b
  simp only [leStart, decide_eq_true_eq]
  exact le_total a.1 b.1

theorem leStart_transitive :
    ∀ a b c : ℚ × ℚ, leStart a b = true → leStart b c = true → leStart a c = true := by
  intro a b c hab hbc
  simp only [leStart, decide_eq_true_eq] at *
  exact le_trans hab hbc

theorem merge_intervals_idem (l : List (ℚ × ℚ)) :
    merge_intervals (merge_intervals l) = merge_intervals l := by
  cases hs : stableSort leStart l with
  | nil =>
    have h0 : merge_intervals l = [] := by unfold merge_intervals; rw [hs]
    rw [h0]
    rfl
  | cons h t =>
    have hml : merge_intervals l = mergeLoop h t := by
      unfold merge_intervals; rw [hs]
    have hchain : List.Chain' (fun a b => leStart a b = true) (h :: t) := by
      rw [← hs]
      exact stableSort_chain leStart leStart_total l
    obtain ⟨hc1, hc2⟩ := mergeLoop_chains h t hchain
    have hsorted : stableSort leStart (mergeLoop h t) = mergeLoop h t :=
      stableSort_of_chain leStart leStart_transitive _ hc1
    obtain ⟨c, t', heq⟩ := mergeLoop_head_start h t
    rw [hml, heq]
    rw [heq] at hsorted hc2
    unfold merge_intervals
    rw [hsorted]
    show mergeLoop (h.1, c) t' = (h.1, c) :: t'
    exact mergeLoop_of_gaps _ _ hc2

/-! ## Data contracts — `src/contracts/{event,alert,incident}.py`

Timestamps are ISO-8601 UTC strings at second precision in the source;
they are modelled as rational epoch seconds (string order on the fixed
ISO format coincides with numeric order).  `event_ids` is a
semicolon-joined string in the source; since the joined tokens never
contain a semicolon, it is modelled as the list of tokens. -/

structure Event where
  timestamp : ℚ
  source : String
  component : String
  event : String
  key : String
  value : String
  severity : String
  actor : String := ""
  ip : String := ""
  unit : String := ""
  tags : String := ""
  correlationId : String := ""
  /-- The numeric reading of `value`: result of Python `float(e.value)`,
  `none` when the parse raises (`value` is carried as an opaque string,
  so its float parse is carried alongside). -/
  valueNum : Option ℚ := none
deriving DecidableEq

structure Alert where
  alertId : String
  ruleId : String
  ruleName : String
  threatType : String
  severity : String
  confidence : ℚ
  timestamp : ℚ
  component : String
  source : String
  description : String
  eventCount : ℕ
  eventIds : List String
  responseHint : String := ""
deriving DecidableEq

structure Incident where
  incidentId : String
  policy : String
  threatType : String
  severity : String
  component : String
  eventCount : ℕ
  startTs : ℚ
  detectTs : Option ℚ
  recoverTs : Option ℚ
  mttdSec : ℚ
  mttrSec : ℚ
  impactScore : ℚ
  description : String
  responseAction : String
deriving DecidableEq

/-- A modifier dict for one threat type, e.g. a map sending the key
mttd_multiplier to 0.5. -/
abbrev Mod : Type := List (String × ℚ)

/-- Per-threat-type policy modifiers (`policy.modifiers`). -/
abbrev PM : Type := List (String × Mod)

/-- Python `mod.get(k, d)` on a modifier dict. -/
def getQ (m : Mod) (k : String) (d : ℚ) : ℚ := (List.lookup k m).getD d

/-- A `bounds` entry of a spoof rule; absent min/max mean `-inf`/`+inf`.
An empty bounds dict is falsy in Python and is modelled as an absent entry. -/
structure BoundsEntry where
  bmin : Option ℚ := none
  bmax : Option ℚ := none
deriving DecidableEq

/-- One entry of `rules.yaml`; `Option` fields mirror Python `rule.get`
with per-call defaults applied at the use sites, exactly as the source does. -/
structure Rule where
  id : String
  name : String
  threatType : String
  enabled : Option Bool := none
  matchEvent : String := ""
  matchValues : List String := []
  matchActorNotIn : List String := []
  windowSec : Option ℚ := none
  threshold : Option ℚ := none
  severity : Option String := none
  confidence : Option ℚ := none
  responseHint : Option String := none
  bounds : List (String × BoundsEntry) := []
  deltas : List (String × ℚ) := []
  severityOverride : List (String × String) := []
deriving DecidableEq

structure RulesCfg where
  rules : List Rule
deriving DecidableEq

def dummyEvent : Event :=
  { timestamp := 0, source := "", component := "", event := "", key := "",
    value := "", severity := "" }

/-! ## Detector — `src/analyzer/detector.py` -/

/-- Insertion-ordered grouping, as Python's `defaultdict` over an
insertion-ordered dict: keys appear in first-occurrence order, values in
input order. -/
def addToGroups [DecidableEq κ] (k : κ) (x : α) : List (κ × List α) → List (κ × List α)
  | [] => [(k, [x])]
  | (k', xs) :: rest =>
    if k' = k then (k', xs ++ [x]) :: rest else (k', xs) :: addToGroups k x rest

def groupByKey [DecidableEq κ] (key : α → κ) (l : List α) : List (κ × List α) :=
  l.foldl (fun acc x => addToGroups (key x) x acc) []

/-- `f"ALR-{n:04d}"` digits part. -/
def pad4 (n : ℕ) : String :=
  if n < 10 then "000" ++ toString n
  else if n < 100 then "00" ++ toString n
  else if n < 1000 then "0" ++ toString n
  else toString n

/-- `f"{q:.0f}"` — format at zero decimal places (half-to-even). -/
def fmtQ0 (q : ℚ) : String := toString (rhe q)

/-- `e.correlation_id or e.timestamp` — the token contributed to `event_ids`. -/
def eventIdOf (e : Event) : String :=
  if e.correlationId = "" then toString e.timestamp else e.correlationId

/-- Sort key for events: timestamp order (`evts.sort(key=lambda e: e.timestamp)`). -/
def tsLe (a b : Event) : Bool := decide (a.timestamp ≤ b.timestamp)

/-- Sort key for alerts: `alerts.sort(key=lambda a: a.timestamp)`. -/
def alertTsLe (a b : Alert) : Bool := decide (a.timestamp ≤ b.timestamp)

/-- The sliding-window buffer loop shared verbatim by the brute-force, DDoS,
spoof and outage rules: drop buffered events older than `window` seconds
before the current event, append the current event, and fire (returning the
buffer) as soon as the buffer reaches `threshold`; `none` if it never fires
(each Python loop `break`s after its first alert, hence one buffer per group). -/
def slideWindow (window : ℚ) (threshold : ℤ) : List Event → List Event → Option (List Event)
  | _, [] => none
  | buf, e :: rest =>
    let buf2 := buf.filter (fun b => decide (e.timestamp - b.timestamp ≤ window)) ++ [e]
    if threshold ≤ (buf2.length : ℤ) then some buf2
    else slideWindow window threshold buf2 rest

/-- Threads the `ALR-` counter across groups; each group yields at most one
alert (`break` after the first firing in the Python loops). -/
def foldAlertGroups (f : ℕ → κ × List Event → Option Alert) (counter : ℕ)
    (groups : List (κ × List Event)) : List Alert :=
  (groups.foldl (fun acc g =>
    match f acc.2 g with
    | none => acc
    | some a => (acc.1 ++ [a], acc.2 + 1)) (([] : List Alert), counter)).1

/-- `key = (e.ip or "unknown", e.source)` in `_detect_brute_force`. -/
def bfKey (e : Event) : String × String :=
  (if e.ip = "" then ("unknown") else e.ip, e.source)

def detect_brute_force (auth_failures : List Event) (rule : Rule) (window : ℚ)
    (threshold : ℤ) (counter : ℕ) : List Alert :=
  foldAlertGroups (fun cnt g =>
    let ip := g.1.1
    let source := g.1.2
    let evts := stableSort tsLe g.2
    match slideWindow window threshold [] evts with
    | none => none
    | some buf => some {
        alertId := "ALR-" ++ pad4 (cnt + 1),
        ruleId := rule.id,
        ruleName := rule.name,
        threatType := rule.threatType,
        severity := rule.severity.getD ("high"),
        confidence := rule.confidence.getD (85/100),
        timestamp := (buf.headD dummyEvent).timestamp,
        component := (evts.headD dummyEvent).component,
        source := source,
        description := "Brute-force: " ++ toString buf.length ++ " auth failures from "
          ++ ip ++ " to " ++ source ++ " within " ++ fmtQ0 window ++ "s",
        eventCount := buf.length,
        eventIds := buf.map eventIdOf,
        responseHint := rule.responseHint.getD "" })
    counter (groupByKey bfKey auth_failures)

/-- The `svc_impact` correlation filter in `_detect_ddos`: a `service_status`
event on the same source with value degraded/down, 0–120 s after `t0`. -/
def ddosSvcImpact (all_events : List Event) (source : String) (t0 : ℚ) : Bool :=
  !(all_events.filter (fun s =>
    s.event == "service_status" && s.source == source && s.key == "status" &&
    (s.value == "degraded" || s.value == "down") &&
    decide (0 ≤ s.timestamp - t0) && decide (s.timestamp - t0 ≤ 120))).isEmpty

def detect_ddos (rate_events : List Event) (rule : Rule) (window : ℚ)
    (threshold : ℤ) (all_events : List Event) (counter : ℕ) : List Alert :=
  foldAlertGroups (fun cnt g =>
    let source := g.1
    let evts := stableSort tsLe g.2
    match slideWindow window threshold [] evts with
    | none => none
    | some buf =>
      let svc := ddosSvcImpact all_events source (buf.headD dummyEvent).timestamp
      some {
        alertId := "ALR-" ++ pad4 (cnt + 1),
        ruleId := rule.id,
        ruleName := rule.name,
        threatType := rule.threatType,
        severity := if svc then ("critical") else rule.severity.getD ("critical"),
        confidence := if svc then 98/100 else rule.confidence.getD (90/100),
        timestamp := (buf.headD dummyEvent).timestamp,
        component := (evts.headD dummyEvent).component,
        source := source,
        description := "DDoS flood: " ++ toString buf.length ++ " rate_exceeded on "
          ++ source ++ " within " ++ fmtQ0 window ++ "s"
          ++ (if svc then (" + service impact") else ""),
        eventCount := buf.length,
        eventIds := buf.map eventIdOf,
        responseHint := rule.responseHint.getD "" })
    counter (groupByKey (fun e => e.source) rate_events)

/-- The anomaly scan of `_detect_telemetry_spoof`: static bounds check and
delta-vs-previous check; unparseable values are skipped without updating
`prev_val`. -/
def spoofAnomalies (bounds : List (String × BoundsEntry)) (deltas : List (String × ℚ))
    (k : String) : Option ℚ → List Event → List Event
  | _, [] => []
  | prev, e :: rest =>
    match e.valueNum with
    | none => spoofAnomalies bounds deltas k prev rest
    | some val =>
      let boundsBad := match List.lookup k bounds with
        | none => false
        | some b => (match b.bmin with | some m => decide (val < m) | none => false) ||
                    (match b.bmax with | some m => decide (m < val) | none => false)
      let deltaBad := match List.lookup k deltas, prev with
        | some d, some pv => decide (d < |val - pv|)
        | _, _ => false
      if boundsBad || deltaBad then e :: spoofAnomalies bounds deltas k (some val) rest
      else spoofAnomalies bounds deltas k (some val) rest

def detect_telemetry_spoof (telem_events : List Event) (rule : Rule) (window : ℚ)
    (threshold : ℤ) (counter : ℕ) : List Alert :=
  foldAlertGroups (fun cnt g =>
    let source := g.1.1
    let k := g.1.2
    let evts := stableSort tsLe g.2
    let anomalies := spoofAnomalies rule.bounds rule.deltas k none evts
    if (anomalies.length : ℤ) < threshold then none else
    match slideWindow window threshold [] anomalies with
    | none => none
    | some buf => some {
        alertId := "ALR-" ++ pad4 (cnt + 1),
        ruleId := rule.id,
        ruleName := rule.name,
        threatType := rule.threatType,
        severity := if 5 ≤ buf.length then ("high") else rule.severity.getD ("medium"),
        confidence := if 5 ≤ buf.length then 90/100 else rule.confidence.getD (75/100),
        timestamp := (buf.headD dummyEvent).timestamp,
        component := (anomalies.headD dummyEvent).component,
        source := source,
        description := "Telemetry anomaly: " ++ toString buf.length
          ++ " out-of-range values for " ++ k ++ " on " ++ source
          ++ " within " ++ fmtQ0 window ++ "s",
        eventCount := buf.length,
        eventIds := buf.map eventIdOf,
        responseHint := rule.responseHint.getD "" })
    counter (groupByKey (fun e => (e.source, e.key)) telem_events)

/-- An event is unauthorized iff its trimmed, lower-cased actor is empty or
not among the lower-cased allowed actors (`match.actor_not_in`). -/
def ucmdUnauthorized (allowed : List String) (e : Event) : Bool :=
  e.actor.trim.toLower == "" ||
  !((allowed.map (fun a => a.toLower)).contains e.actor.trim.toLower)

def detect_unauthorized_cmd (cmd_events : List Event) (rule : Rule)
    (counter : ℕ) : List Alert :=
  match cmd_events.filter (ucmdUnauthorized rule.matchActorNotIn) with
  | [] => []
  | u :: rest =>
    [{ alertId := "ALR-" ++ pad4 (counter + 1),
       ruleId := rule.id,
       ruleName := rule.name,
       threatType := rule.threatType,
       severity := "critical",
       confidence := if 3 ≤ (u :: rest).length then 99/100 else rule.confidence.getD (95/100),
       timestamp := u.timestamp,
       component := u.component,
       source := u.source,
       description := "Unauthorized command: " ++ toString (u :: rest).length
         ++ " cmd_exec by non-allowed actor(s) on " ++ u.source,
       eventCount := (u :: rest).length,
       eventIds := (u :: rest).map eventIdOf,
       responseHint := rule.responseHint.getD "" }]

/-- First `severity_override` entry whose value occurs in the buffer. -/
def findOverride : List (String × String) → List Event → Option String
  | [], _ => none
  | (v, sv) :: rest, buf =>
    if buf.any (fun b => b.value == v) then some sv else findOverride rest buf

def detect_outage (svc_events : List Event) (rule : Rule) (window : ℚ)
    (threshold : ℤ) (_all_events : List Event) (counter : ℕ) : List Alert :=
  let matched := if rule.matchValues.isEmpty then svc_events
    else svc_events.filter (fun e => rule.matchValues.contains e.value)
  foldAlertGroups (fun cnt g =>
    let source := g.1
    let evts := stableSort tsLe g.2
    match slideWindow window threshold [] evts with
    | none => none
    | some buf => some {
        alertId := "ALR-" ++ pad4 (cnt + 1),
        ruleId := rule.id,
        ruleName := rule.name,
        threatType := rule.threatType,
        severity := (findOverride rule.severityOverride buf).getD (rule.severity.getD ("high")),
        confidence := rule.confidence.getD (90/100),
        timestamp := (buf.headD dummyEvent).timestamp,
        component := (evts.headD dummyEvent).component,
        source := source,
        description := "Outage: " ++ toString buf.length ++ " " ++ (evts.headD dummyEvent).event
          ++ " events on " ++ source ++ " (values: "
          ++ String.intercalate (", ") (buf.map (fun e => e.value)) ++ ")",
        eventCount := buf.length,
        eventIds := buf.map eventIdOf,
        responseHint := rule.responseHint.getD "" })
    counter (groupByKey (fun e => e.source) matched)

/-- `pm.get(threat, {}).get(k, 1.0)` — the policy multiplier consulted by
the detector (window/threshold) and the correlator (mttd/mttr/impact). -/
def modifier_of (pm : PM) (t k : String) : ℚ :=
  getQ ((List.lookup t pm).getD []) k 1

/-- `window = rule.get("window_sec", 60) * mod.get("window_multiplier", 1.0)`. -/
def ruleWindow (pm : PM) (rule : Rule) : ℚ :=
  rule.windowSec.getD 60 * modifier_of pm rule.threatType ("window_multiplier")

/-- `threshold = max(1, round(rule.get("threshold", 1) * mod.get("threshold_multiplier", 1.0)))`. -/
def ruleThreshold (pm : PM) (rule : Rule) : ℤ :=
  max 1 (rhe (rule.threshold.getD 1 * modifier_of pm rule.threatType ("threshold_multiplier")))

/-- One iteration of the per-rule loop in `detect`: skip disabled rules,
filter the matching events, dispatch on the rule-id family, extend the alert
list and advance the ALR counter. -/
def detectStep (events : List Event) (pm : PM) (acc : List Alert × ℕ)
    (rule : Rule) : List Alert × ℕ :=
  if !(rule.enabled.getD true) then acc else
  let window := ruleWindow pm rule
  let threshold := ruleThreshold pm rule
  let matched := events.filter (fun e => e.event == rule.matchEvent)
  let newAlerts :=
    if rule.id.startsWith ("RULE-BF") then
      detect_brute_force matched rule window threshold acc.2
    else if rule.id.startsWith ("RULE-DDOS") then
      detect_ddos matched rule window threshold events acc.2
    else if rule.id.startsWith ("RULE-SPOOF") then
      detect_telemetry_spoof matched rule window threshold acc.2
    else if rule.id.startsWith ("RULE-UCMD") then
      detect_unauthorized_cmd matched rule acc.2
    else if rule.id.startsWith ("RULE-OUT") then
      detect_outage matched rule window threshold events acc.2
    else []
  (acc.1 ++ newAlerts, acc.2 + newAlerts.length)

/-- `detect(events, rules_cfg, policy_modifiers)` — run all enabled rules,
applying the policy's window/threshold multipliers, and sort the alerts by
timestamp (`policy_modifiers or {}` is modelled by passing `[]`). -/
def detect (events : List Event) (rules_cfg : RulesCfg) (pm : PM) : List Alert :=
  if events.isEmpty then [] else
  stableSort alertTsLe (rules_cfg.rules.foldl (detectStep events pm) ([], 0)).1

/-! ## Correlator — `src/analyzer/correlator.py` -/

def dummyAlert : Alert :=
  { alertId := "", ruleId := "", ruleName := "", threatType := "", severity := "",
    confidence := 0, timestamp := 0, component := "", source := "", description := "",
    eventCount := 0, eventIds := [] }

/-- `_extract_cor_ids` — the stripped tokens of `event_ids` beginning with COR-. -/
def extract_cor_ids (eventIds : List String) : List String :=
  (eventIds.map (fun t => t.trim)).filter (fun t => t.startsWith ("COR-"))

/-- The phase-1 grouping key: `sorted(cids)[0]`, i.e. the smallest COR token;
`none` when the alert carries no COR token. -/
def corKey (a : Alert) : Option String :=
  match extract_cor_ids a.eventIds with
  | [] => none
  | c :: cs => some (cs.foldl min c)

/-- `max(_ts(x.timestamp) for x in grp)` (groups are never empty). -/
def maxTs : List Alert → ℚ
  | [] => 0
  | a :: rest => rest.foldl (fun m x => max m x.timestamp) a.timestamp

/-- One step of the phase-2 loop: scan existing time groups in insertion
order; join the first whose key starts with `component|threat_type` and whose
latest timestamp is within the merge window, else open a new group keyed
`component|threat_type|alert_id` at the end. -/
def placeAlert (mw : ℚ) (a : Alert) : List (String × List Alert) → List (String × List Alert)
  | [] => [(a.component ++ "|" ++ a.threatType ++ "|" ++ a.alertId, [a])]
  | (gk, grp) :: rest =>
    if gk.startsWith (a.component ++ "|" ++ a.threatType)
        && decide (|a.timestamp - maxTs grp| ≤ mw)
    then (gk, grp ++ [a]) :: rest
    else (gk, grp) :: placeAlert mw a rest

/-- `_BASE_TIMING`: (mttd, mttr) base seconds per threat type. -/
def base_timing : List (String × (ℚ × ℚ)) :=
  [("credential_attack", (30, 120)), ("availability_attack", (15, 180)),
   ("integrity_attack", (60, 240)), ("outage", (10, 300))]

/-- `_SEV_ORDER.get(s, 0)`. -/
def sevOrder (s : String) : ℕ :=
  (List.lookup s [("low", 0), ("medium", 1), ("high", 2), ("critical", 3)]).getD 0

/-- `max(s1, s2, key=_SEV_ORDER.get)` — Python `max` keeps the first argument
on ties. -/
def maxSev (s1 s2 : String) : String := if sevOrder s1 < sevOrder s2 then s2 else s1

/-- `_SEV_IMPACT` severity weights. -/
def sevImpactTable : List (String × ℚ) :=
  [("low", 2/10), ("medium", 4/10), ("high", 7/10), ("critical", 1)]

/-- `sev = group[0].severity` then folding `_max_sev` over the rest. -/
def sevOfGroup : List Alert → String
  | [] => ""
  | a :: rest => rest.foldl (fun s x => maxSev s x.severity) a.severity

def strLe (a b : String) : Bool := decide (a ≤ b)

/-- Python `sorted(set(l))` on strings: distinct elements in order. -/
def sortedUnique (l : List String) : List String := stableSort strLe l.eraseDups

/-- `f"INC-{idx:03d}"` digits part. -/
def pad3 (n : ℕ) : String :=
  if n < 10 then "00" ++ toString n
  else if n < 100 then "0" ++ toString n
  else toString n

/-- `mttd = bases["mttd"] * mod.get("mttd_multiplier", 1.0)` with bases from
`_BASE_TIMING.get(threat, {"mttd": 30.0, "mttr": 120.0})`. -/
def mttd_of (pm : PM) (threat : String) : ℚ :=
  ((List.lookup threat base_timing).getD (30, 120)).1
    * modifier_of pm threat ("mttd_multiplier")

/-- `mttr = bases["mttr"] * mod.get("mttr_multiplier", 1.0)`. -/
def mttr_of (pm : PM) (threat : String) : ℚ :=
  ((List.lookup threat base_timing).getD (30, 120)).2
    * modifier_of pm threat ("mttr_multiplier")

/-- `_build_incident(group, idx, policy, pm)`.  `strftime` at second
precision truncates the sub-second part of `start + mttd` and of
`start + mttd + mttr` (the untruncated detect instant plus mttr), hence the
floors. -/
def build_incident (group : List Alert) (idx : ℕ) (policy : String) (pm : PM) : Incident :=
  let a0 := group.headD dummyAlert
  let threat := a0.threatType
  let mttd := mttd_of pm threat
  let mttr := mttr_of pm threat
  let startTs := a0.timestamp
  let sev := sevOfGroup group
  let avgConf := ((group.map (fun a => a.confidence)).sum) / (group.length : ℚ)
  let impact0 := roundTo 4
    ((List.lookup sev sevImpactTable).getD (1/2) * avgConf
      * modifier_of pm threat ("impact_multiplier"))
  { incidentId := "INC-" ++ pad3 idx,
    policy := policy,
    threatType := threat,
    severity := sev,
    component := String.intercalate (";") (sortedUnique (group.map (fun a => a.component))),
    eventCount := (group.map (fun a => a.eventCount)).sum,
    startTs := startTs,
    detectTs := some ((⌊startTs + mttd⌋ : ℤ) : ℚ),
    recoverTs := some ((⌊startTs + mttd + mttr⌋ : ℤ) : ℚ),
    mttdSec := roundTo 2 mttd,
    mttrSec := roundTo 2 mttr,
    impactScore := min impact0 1,
    description := String.intercalate (" | ") (sortedUnique (group.map (fun a => a.description))),
    responseAction :=
      match sortedUnique ((group.filter (fun a => a.responseHint != "")).map
          (fun a => a.responseHint)) with
      | [] => "notify"
      | p :: ps => String.intercalate ("; ") (p :: ps) }

def incStartLe (i j : Incident) : Bool := decide (i.startTs ≤ j.startTs)

/-- The two-phase grouping of `correlate`: COR-keyed groups first (phase 1),
then the spatio-temporal groups (phase 2), in insertion order.  Policy
modifiers play no part in grouping. -/
def corGroupsOf (alerts : List Alert) (merge_window_sec : ℚ) : List (List Alert) :=
  (groupByKey (fun a => (corKey a).getD "")
      (alerts.filter (fun a => (corKey a).isSome))).map (fun g => g.2)
    ++ ((alerts.filter (fun a => (corKey a).isNone)).foldl
      (fun tg a => placeAlert merge_window_sec a tg) []).map (fun g => g.2)

/-- `correlate(alerts, policy_name, policy_modifiers, merge_window_sec)`. -/
def correlate (alerts : List Alert) (policy_name : String) (pm : PM)
    (merge_window_sec : ℚ) : List Incident :=
  if alerts.isEmpty then [] else
  stableSort incStartLe ((corGroupsOf alerts merge_window_sec).enum.map
    (fun p => build_incident (stableSort alertTsLe p.2) (p.1 + 1) policy_name pm))

/-! ## Metrics engine — `src/analyzer/metrics.py` -/

structure PolicyMetrics where
  policy : String
  availabilityPct : ℚ := 100
  totalDowntimeHr : ℚ := 0
  meanMttdMin : ℚ := 0
  meanMttrMin : ℚ := 0
  incidentsTotal : ℕ := 0
  incidentsBySeverity : List (String × ℕ) := []
  incidentsByThreat : List (String × ℕ) := []
deriving DecidableEq

/-- Insertion-ordered dict increment: `m[k] = m.get(k, 0) + 1`. -/
def bump : List (String × ℕ) → String → List (String × ℕ)
  | [], k => [(k, 1)]
  | (k', n) :: rest, k =>
    if k' = k then (k', n + 1) :: rest else (k', n) :: bump rest k

/-- The downtime interval contributed by one incident, if any: severity
high/critical, both endpoints present, and positive length. -/
def downtimeOf (inc : Incident) : Option (ℚ × ℚ) :=
  if inc.severity = "high" ∨ inc.severity = "critical" then
    match inc.detectTs, inc.recoverTs with
    | some s, some e => if e ≤ s then none else some (s, e)
    | _, _ => none
  else none

/-- The downtime intervals considered by `compute`. -/
def downtimeIntervals (incidents : List Incident) : List (ℚ × ℚ) :=
  incidents.filterMap downtimeOf

/-- `total_dt_sec`: merged interval lengths summed. -/
def total_downtime_sec (incidents : List Incident) : ℚ :=
  ((merge_intervals (downtimeIntervals incidents)).map (fun p => p.2 - p.1)).sum

/-- `compute(incidents, policy_name, horizon_sec)`. -/
def compute (incidents : List Incident) (policy_name : String)
    (horizon_sec : ℚ) : PolicyMetrics :=
  if incidents.isEmpty then { policy := policy_name } else
  let total_dt := total_downtime_sec incidents
  { policy := policy_name,
    incidentsTotal := incidents.length,
    incidentsBySeverity := incidents.foldl (fun m i => bump m i.severity) [],
    incidentsByThreat := incidents.foldl (fun m i => bump m i.threatType) [],
    meanMttdMin := roundTo 2 ((incidents.map (fun i => i.mttdSec)).sum / (incidents.length : ℚ) / 60),
    meanMttrMin := roundTo 2 ((incidents.map (fun i => i.mttrSec)).sum / (incidents.length : ℚ) / 60),
    totalDowntimeHr := roundTo 4 (total_dt / 3600),
    availabilityPct :=
      if 0 < horizon_sec then roundTo 2 ((1 - total_dt / horizon_sec) * 100) else 100 }

/-! ## Policy engine — `src/analyzer/policy_engine.py` -/

structure Policy where
  modifiers : PM := []
deriving DecidableEq

structure PoliciesCfg where
  policies : List (String × Policy) := []
deriving DecidableEq

/-- `get_modifiers(policies_cfg, policy_name)` — empty dict when the policy
is unknown. -/
def get_modifiers (cfg : PoliciesCfg) (policy_name : String) : PM :=
  match List.lookup policy_name cfg.policies with
  | none => []
  | some p => p.modifiers

/-! ## Supporting lemmas about `compute` and the interval merge -/

theorem roundTo_hundred : roundTo 2 (100 : ℚ) = 100 := by
  have h := roundTo_intCast 2 100
  push_cast at h
  exact h

theorem mergeLoop_wf (cur : ℚ × ℚ) (rest : List (ℚ × ℚ)) (hc : cur.1 ≤ cur.2)
    (hr : ∀ iv ∈ rest, iv.1 ≤ iv.2) :
    ∀ iv ∈ mergeLoop cur rest, iv.1 ≤ iv.2 := by
  induction rest generalizing cur with
  | nil =>
    intro iv hiv
    simp only [mergeLoop, List.mem_singleton] at hiv
    rw [hiv]; exact hc
  | cons p rest ih =>
    obtain ⟨s, e⟩ := p
    intro iv hiv
    unfold mergeLoop at hiv
    split at hiv
    · exact ih (cur.1, max cur.2 e) (le_trans hc (le_max_left _ _))
        (fun q hq => hr q (by simp [hq])) iv hiv
    · rcases List.mem_cons.mp hiv with h | h
      · rw [h]; exact hc
      · exact ih (s, e) (hr (s, e) (by simp)) (fun q hq => hr q (by simp [hq])) iv h

theorem merge_intervals_wf (l : List (ℚ × ℚ)) (hl : ∀ iv ∈ l, iv.1 ≤ iv.2) :
    ∀ iv ∈ merge_intervals l, iv.1 ≤ iv.2 := by
  unfold merge_intervals
  cases hs : stableSort leStart l with
  | nil => intro iv hiv; simp at hiv
  | cons h t =>
    have hmem : ∀ iv ∈ h :: t, iv.1 ≤ iv.2 := by
      intro iv hiv
      exact hl iv ((mem_stableSort leStart l iv).mp (hs ▸ hiv))
    exact mergeLoop_wf h t (hmem h (by simp)) (fun q hq => hmem q (by simp [hq]))

theorem downtimeOf_wf (inc : Incident) (iv : ℚ × ℚ) (h : downtimeOf inc = some iv) :
    iv.1 ≤ iv.2 := by
  unfold downtimeOf at h
  by_cases hs : inc.severity = "high" ∨ inc.severity = "critical"
  · rw [if_pos hs] at h
    cases hd : inc.detectTs with
    | none =>
      rw [hd] at h
      cases inc.recoverTs <;> simp at h
    | some s =>
      cases hr2 : inc.recoverTs with
      | none =>
        rw [hd, hr2] at h
        simp at h
      | some e =>
        rw [hd, hr2] at h
        have h' : (if e ≤ s then none else some (s, e)) = some iv := h
        by_cases hle : e ≤ s
        · rw [if_pos hle] at h'
          exact absurd h' (by simp)
        · rw [if_neg hle] at h'
          have hiv : (s, e) = iv := by injection h'
          rw [← hiv]
          push_neg at hle
          exact le_of_lt hle
  · rw [if_neg hs] at h
    exact absurd h (by simp)

theorem downtimeIntervals_wf (incidents : List Incident) :
    ∀ iv ∈ downtimeIntervals incidents, iv.1 ≤ iv.2 := by
  intro iv hiv
  simp only [downtimeIntervals, List.mem_filterMap] at hiv
  obtain ⟨inc, _, h⟩ := hiv
  exact downtimeOf_wf inc iv h

theorem total_downtime_sec_nonneg (incidents : List Incident) :
    0 ≤ total_downtime_sec incidents := by
  unfold total_downtime_sec
  apply List.sum_nonneg
  intro x hx
  simp only [List.mem_map] at hx
  obtain ⟨iv, hiv, hx⟩ := hx
  rw [← hx]
  have := merge_intervals_wf (downtimeIntervals incidents)
    (downtimeIntervals_wf incidents) iv hiv
  linarith

/-- The availability field of `compute`, as a single unconditional formula
(on empty input both sides are 100 since the downtime is 0). -/
theorem compute_availabilityPct (incs : List Incident) (n : String) (h : ℚ) :
    (compute incs n h).availabilityPct =
      if 0 < h then roundTo 2 ((1 - total_downtime_sec incs / h) * 100) else 100 := by
  unfold compute
  cases hempty : incs.isEmpty
  · simp only [Bool.false_eq_true, if_false]
  · have : incs = [] := List.isEmpty_iff.mp hempty
    subst this
    simp only [if_true]
    have hdt : total_downtime_sec [] = 0 := rfl
    rw [hdt]
    split
    · rw [zero_div, sub_zero, one_mul, roundTo_hundred]
    · rfl

/-- The mean-MTTD field of `compute` as a single unconditional formula
(on empty input both sides are 0). -/
theorem compute_meanMttdMin (incs : List Incident) (n : String) (h : ℚ) :
    (compute incs n h).meanMttdMin =
      roundTo 2 ((incs.map (fun i => i.mttdSec)).sum / (incs.length : ℚ) / 60) := by
  unfold compute
  cases hempty : incs.isEmpty
  · simp only [Bool.false_eq_true, if_false]
  · have : incs = [] := List.isEmpty_iff.mp hempty
    subst this
    simp only [if_true, List.map_nil, List.sum_nil, List.length_nil]
    rw [Nat.cast_zero, zero_div, zero_div, roundTo_zero]

/-- The mean-MTTR field of `compute` as a single unconditional formula. -/
theorem compute_meanMttrMin (incs : List Incident) (n : String) (h : ℚ) :
    (compute incs n h).meanMttrMin =
      roundTo 2 ((incs.map (fun i => i.mttrSec)).sum / (incs.length : ℚ) / 60) := by
  unfold compute
  cases hempty : incs.isEmpty
  · simp only [Bool.false_eq_true, if_false]
  · have : incs = [] := List.isEmpty_iff.mp hempty
    subst this
    simp only [if_true, List.map_nil, List.sum_nil, List.length_nil]
    rw [Nat.cast_zero, zero_div, zero_div, roundTo_zero]

/-! ## Claim theorems -/

/-- C6: the interval merge is idempotent — merging an already-merged list
returns it unchanged; moreover the merged output is sorted by start and its
consecutive intervals are separated (next start strictly after current end),
so a second merge changes nothing. -/
theorem C6_merge_intervals_idempotent (l : List (ℚ × ℚ)) :
    merge_intervals (merge_intervals l) = merge_intervals l ∧
    List.Chain' (fun a b : ℚ × ℚ => a.1 ≤ b.1) (merge_intervals l) ∧
    List.Chain' (fun a b : ℚ × ℚ => a.2 < b.1) (merge_intervals l) := by
  refine ⟨merge_intervals_idem l, ?_, ?_⟩ <;>
  · unfold merge_intervals
    cases hs : stableSort leStart l with
    | nil => simp
    | cons h t =>
      have hchain : List.Chain' (fun a b => leStart a b = true) (h :: t) := by
        rw [← hs]
        exact stableSort_chain leStart leStart_total l
      obtain ⟨hc1, hc2⟩ := mergeLoop_chains h t hchain
      first
      | exact List.Chain'.imp (fun a b hab => by simpa [leStart] using hab) hc1
      | exact hc2

/-- C8: empty input yields empty or neutral output for all three pipeline
stages: no alerts, no incidents, and a PolicyMetrics with 100% availability,
zero downtime, zero means, zero incidents and empty count maps. -/
theorem C8_empty_input_neutral (rules_cfg : RulesCfg) (pm : PM) (p : String)
    (pm' : PM) (mw : ℚ) (n : String) (h : ℚ) :
    detect [] rules_cfg pm = [] ∧
    correlate [] p pm' mw = [] ∧
    (compute [] n h).policy = n ∧
    (compute [] n h).availabilityPct = 100 ∧
    (compute [] n h).totalDowntimeHr = 0 ∧
    (compute [] n h).meanMttdMin = 0 ∧
    (compute [] n h).meanMttrMin = 0 ∧
    (compute [] n h).incidentsTotal = 0 ∧
    (compute [] n h).incidentsBySeverity = [] ∧
    (compute [] n h).incidentsByThreat = [] :=
  ⟨rfl, rfl, rfl, rfl, rfl, rfl, rfl, rfl, rfl, rfl⟩

/-- C1 (amended): `availability_pct` equals 100 when `horizon_sec ≤ 0` and
`round((1 − total_downtime_sec / horizon_sec) · 100, 2)` otherwise, and it
never exceeds 100; but the code applies no lower clamp, so the claimed lower
bound 0 fails when merged downtime exceeds the horizon (see the
counterexample). -/
theorem C1_availability_formula_and_upper_bound (incidents : List Incident)
    (n : String) (h : ℚ) :
    (compute incidents n h).availabilityPct ≤ 100 ∧
    (h ≤ 0 → (compute incidents n h).availabilityPct = 100) ∧
    (0 < h → (compute incidents n h).availabilityPct
      = roundTo 2 ((1 - total_downtime_sec incidents / h) * 100)) := by
  rw [compute_availabilityPct]
  refine ⟨?_, ?_, ?_⟩
  · split
    · rename_i hpos
      have hdt := total_downtime_sec_nonneg incidents
      have hq : 0 ≤ total_downtime_sec incidents / h := div_nonneg hdt (le_of_lt hpos)
      calc roundTo 2 ((1 - total_downtime_sec incidents / h) * 100)
          ≤ roundTo 2 100 := roundTo_mono 2 (by linarith)
        _ = 100 := roundTo_hundred
    · exact le_refl _
  · intro hle
    rw [if_neg (not_lt.mpr hle)]
  · intro hpos
    rw [if_pos hpos]

/-- An incident whose merged downtime (200 s) exceeds the horizon (100 s). -/
def overHorizonIncident : Incident :=
  { incidentId := "I", policy := "p", threatType := "outage", severity := "high",
    component := "", eventCount := 1, startTs := 0, detectTs := some 0,
    recoverTs := some 200, mttdSec := 0, mttrSec := 0, impactScore := 0,
    description := "", responseAction := "" }

/-- C1 counterexample: with 200 s of high-severity downtime against a 100 s
horizon, `compute` returns availability −100, refuting the claimed invariant
`0 ≤ availability_pct`. -/
theorem C1_availability_below_zero_counterexample :
    (compute [overHorizonIncident] "p" 100).availabilityPct = -100 ∧
    ¬ (0 ≤ (compute [overHorizonIncident] "p" 100).availabilityPct) := by
  with_unfolding_all decide

/-- C1 witness: the amended availability formula at concrete horizons. -/
theorem C1_availability_formula_witness :
    (compute [overHorizonIncident] "p" (-5)).availabilityPct = 100 ∧
    (compute [overHorizonIncident] "p" 3600).availabilityPct
      = roundTo 2 ((1 - total_downtime_sec [overHorizonIncident] / 3600) * 100) :=
  ⟨(C1_availability_formula_and_upper_bound [overHorizonIncident] "p" (-5)).2.1
      (by norm_num),
    (C1_availability_formula_and_upper_bound [overHorizonIncident] "p" 3600).2.2
      (by norm_num)⟩

/-- C2: for every incident built by the correlator, `detect_ts` equals
`start_ts + mttd` and `recover_ts` equals `detect_ts + mttr` to second
precision (the emitted timestamps are truncated to whole seconds), where
mttd and mttr are the per-threat base timings (credential_attack 30/120,
availability_attack 15/180, integrity_attack 60/240, outage 10/300, fallback
30/120 for unknown threat types) times the policy's mttd/mttr multipliers
(default 1). -/
theorem C2_incident_timing (group : List Alert) (idx : ℕ) (policy : String) (pm : PM) :
    ∃ d r : ℚ,
      (build_incident group idx policy pm).detectTs = some d ∧
      (build_incident group idx policy pm).recoverTs = some r ∧
      |d - ((build_incident group idx policy pm).startTs
        + mttd_of pm (group.headD dummyAlert).threatType)| < 1 ∧
      |r - (d + mttr_of pm (group.headD dummyAlert).threatType)| < 1 ∧
      (build_incident group idx policy pm).mttdSec
        = roundTo 2 (mttd_of pm (group.headD dummyAlert).threatType) ∧
      (build_incident group idx policy pm).mttrSec
        = roundTo 2 (mttr_of pm (group.headD dummyAlert).threatType) ∧
      (∀ t, mttd_of pm t = ((List.lookup t base_timing).getD (30, 120)).1
        * modifier_of pm t ("mttd_multiplier")) ∧
      (∀ t, mttr_of pm t = ((List.lookup t base_timing).getD (30, 120)).2
        * modifier_of pm t ("mttr_multiplier")) ∧
      List.lookup ("credential_attack") base_timing = some (30, 120) ∧
      List.lookup ("availability_attack") base_timing = some (15, 180) ∧
      List.lookup ("integrity_attack") base_timing = some (60, 240) ∧
      List.lookup ("outage") base_timing = some (10, 300) := by
  set x : ℚ := (group.headD dummyAlert).timestamp
    + mttd_of pm (group.headD dummyAlert).threatType with hx
  refine ⟨((⌊x⌋ : ℤ) : ℚ),
    ((⌊x + mttr_of pm (group.headD dummyAlert).threatType⌋ : ℤ) : ℚ),
    rfl, rfl, ?_, ?_, rfl, rfl, fun t => rfl, fun t => rfl, ?_, ?_, ?_, ?_⟩
  · show |((⌊x⌋ : ℤ) : ℚ) - x| < 1
    rw [abs_lt]
    constructor <;> linarith [Int.floor_le x, Int.lt_floor_add_one x]
  · set y : ℚ := mttr_of pm (group.headD dummyAlert).threatType
    rw [abs_lt]
    constructor <;>
      linarith [Int.floor_le x, Int.lt_floor_add_one x,
        Int.floor_le (x + y), Int.lt_floor_add_one (x + y)]
  all_goals with_unfolding_all decide

/-! ## C3 — impact score -/

theorem maxSev_or (s1 s2 : String) : maxSev s1 s2 = s1 ∨ maxSev s1 s2 = s2 := by
  unfold maxSev
  split
  · exact Or.inr rfl
  · exact Or.inl rfl

theorem foldl_maxSev_or (init : String) (l : List Alert) :
    l.foldl (fun s x => maxSev s x.severity) init = init ∨
    ∃ a ∈ l, l.foldl (fun s x => maxSev s x.severity) init = a.severity := by
  induction l generalizing init with
  | nil => exact Or.inl rfl
  | cons a rest ih =>
    simp only [List.foldl_cons]
    rcases ih (maxSev init a.severity) with h | ⟨b, hb, h⟩
    · rw [h]
      rcases maxSev_or init a.severity with h2 | h2
      · exact Or.inl h2
      · exact Or.inr ⟨a, by simp, h2⟩
    · exact Or.inr ⟨b, by simp [hb], h⟩

theorem sevOfGroup_valid (group : List Alert) (hg : group ≠ [])
    (hsev : ∀ a ∈ group, a.severity = "low" ∨ a.severity = "medium" ∨
      a.severity = "high" ∨ a.severity = "critical") :
    sevOfGroup group = "low" ∨ sevOfGroup group = "medium" ∨
    sevOfGroup group = "high" ∨ sevOfGroup group = "critical" := by
  cases group with
  | nil => exact absurd rfl hg
  | cons a rest =>
    have hsg : sevOfGroup (a :: rest)
        = rest.foldl (fun s x => maxSev s x.severity) a.severity := rfl
    rw [hsg]
    rcases foldl_maxSev_or a.severity rest with h | ⟨b, hb, h⟩
    · rw [h]
      exact hsev a (by simp)
    · rw [h]
      exact hsev b (by simp [hb])

/-- Severity weights and the clamp to `[0, 1]`, as the claim words them
(compared below against the source-derived `build_incident`). -/
def sevWeightSpec (s : String) : ℚ :=
  if s = "low" then 2/10 else if s = "medium" then 4/10
  else if s = "high" then 7/10 else 1

def clamp01 (q : ℚ) : ℚ := max 0 (min q 1)

/-- C3: under the claim's assumptions (non-empty alert group, confidences in
`[0, 1]`, positive impact multiplier and valid member severities), the
incident's impact score equals severity weight × mean confidence × impact
multiplier, rounded to 4 decimals then clamped to `[0, 1]`, and in
particular lies in `[0, 1]`. -/
theorem C3_impact_score (group : List Alert) (idx : ℕ) (policy : String) (pm : PM)
    (hg : group ≠ [])
    (hconf : ∀ a ∈ group, 0 ≤ a.confidence ∧ a.confidence ≤ 1)
    (hmult : 0 < modifier_of pm (group.headD dummyAlert).threatType ("impact_multiplier"))
    (hsev : ∀ a ∈ group, a.severity = "low" ∨ a.severity = "medium" ∨
      a.severity = "high" ∨ a.severity = "critical") :
    (build_incident group idx policy pm).impactScore
      = clamp01 (roundTo 4 (sevWeightSpec (build_incident group idx policy pm).severity
          * ((group.map (fun a => a.confidence)).sum / (group.length : ℚ))
          * modifier_of pm (group.headD dummyAlert).threatType ("impact_multiplier"))) ∧
    0 ≤ (build_incident group idx policy pm).impactScore ∧
    (build_incident group idx policy pm).impactScore ≤ 1 := by
  have hsevg : (build_incident group idx policy pm).severity = sevOfGroup group := rfl
  have hvalid := sevOfGroup_valid group hg hsev
  have htab : (List.lookup (sevOfGroup group) sevImpactTable).getD (1/2)
      = sevWeightSpec (sevOfGroup group) := by
    rcases hvalid with h | h | h | h <;> rw [h] <;> with_unfolding_all decide
  have hw0 : 0 ≤ sevWeightSpec (sevOfGroup group) := by
    rcases hvalid with h | h | h | h <;> rw [h] <;> with_unfolding_all decide
  have hlen : (0 : ℚ) < (group.length : ℚ) := by
    have := List.length_pos.mpr hg
    exact_mod_cast this
  have hS0 : 0 ≤ (group.map (fun a => a.confidence)).sum := by
    apply List.sum_nonneg
    intro x hx
    simp only [List.mem_map] at hx
    obtain ⟨a, ha, hx⟩ := hx
    rw [← hx]
    exact (hconf a ha).1
  have hS1 : (group.map (fun a => a.confidence)).sum ≤ (group.length : ℚ) := by
    have h1 := List.sum_le_card_nsmul (group.map (fun a => a.confidence)) 1 (by
      intro x hx
      simp only [List.mem_map] at hx
      obtain ⟨a, ha, hx⟩ := hx
      rw [← hx]
      exact (hconf a ha).2)
    simpa [nsmul_eq_mul] using h1
  have havg0 : 0 ≤ (group.map (fun a => a.confidence)).sum / (group.length : ℚ) :=
    div_nonneg hS0 (le_of_lt hlen)
  have hprod0 : 0 ≤ sevWeightSpec (sevOfGroup group)
      * ((group.map (fun a => a.confidence)).sum / (group.length : ℚ))
      * modifier_of pm (group.headD dummyAlert).threatType ("impact_multiplier") :=
    mul_nonneg (mul_nonneg hw0 havg0) (le_of_lt hmult)
  have hr0 : 0 ≤ roundTo 4 (sevWeightSpec (sevOfGroup group)
      * ((group.map (fun a => a.confidence)).sum / (group.length : ℚ))
      * modifier_of pm (group.headD dummyAlert).threatType ("impact_multiplier")) :=
    roundTo_nonneg 4 hprod0
  have hcode : (build_incident group idx policy pm).impactScore
      = min (roundTo 4 ((List.lookup (sevOfGroup group) sevImpactTable).getD (1/2)
          * ((group.map (fun a => a.confidence)).sum / (group.length : ℚ))
          * modifier_of pm (group.headD dummyAlert).threatType ("impact_multiplier"))) 1 := rfl
  rw [hsevg, hcode, htab]
  refine ⟨?_, ?_, ?_⟩
  · unfold clamp01
    rw [max_eq_right (le_min hr0 zero_le_one)]
  · exact le_min hr0 zero_le_one
  · exact min_le_right _ _

/-- A concrete alert for the C3 witness. -/
def wAlertC3 : Alert :=
  { alertId := "ALR-0001", ruleId := "RULE-OUT-001", ruleName := "w",
    threatType := "outage", severity := "high", confidence := 1/2, timestamp := 0,
    component := "db", source := "db01", description := "d", eventCount := 1,
    eventIds := [] }

/-- C3 witness: the impact-score bounds at a concrete one-alert group. -/
theorem C3_impact_score_witness :
    0 ≤ (build_incident [wAlertC3] 1 "p" []).impactScore ∧
    (build_incident [wAlertC3] 1 "p" []).impactScore ≤ 1 := by
  have h := C3_impact_score [wAlertC3] 1 "p" []
    (List.cons_ne_nil _ _)
    (by
      intro a ha
      rw [List.mem_singleton] at ha
      subst ha
      show (0 : ℚ) ≤ 1/2 ∧ (1/2 : ℚ) ≤ 1
      norm_num)
    (by
      show (0 : ℚ) < 1
      norm_num)
    (by
      intro a ha
      rw [List.mem_singleton] at ha
      subst ha
      right; right; left
      rfl)
  exact ⟨h.2.1, h.2.2⟩

/-! ## C5 — unauthorized command rule -/

/-- C5: an event is unauthorized iff its trimmed, lower-cased actor is empty
or outside the rule's (lower-cased) allowed set; when any unauthorized event
exists the detector emits exactly one alert whose timestamp is the first
unauthorized event's, whose event count is the number of unauthorized
events, whose severity is critical and whose confidence is 0.99 when at
least 3 events are unauthorized, else the rule's default; with no
unauthorized events nothing is emitted. -/
theorem C5_unauthorized_cmd (cmd_events : List Event) (rule : Rule) (counter : ℕ) :
    (∀ e : Event, ucmdUnauthorized rule.matchActorNotIn e = true ↔
      (e.actor.trim.toLower = "" ∨
        e.actor.trim.toLower ∉ rule.matchActorNotIn.map (fun a => a.toLower))) ∧
    (cmd_events.filter (ucmdUnauthorized rule.matchActorNotIn) = [] →
      detect_unauthorized_cmd cmd_events rule counter = []) ∧
    (∀ u rest, cmd_events.filter (ucmdUnauthorized rule.matchActorNotIn) = u :: rest →
      (detect_unauthorized_cmd cmd_events rule counter).length = 1 ∧
      ∀ a ∈ detect_unauthorized_cmd cmd_events rule counter,
        a.timestamp = u.timestamp ∧
        a.eventCount = (u :: rest).length ∧
        a.severity = "critical" ∧
        a.confidence = (if 3 ≤ (u :: rest).length then 99/100
          else rule.confidence.getD (95/100))) := by
  refine ⟨?_, ?_, ?_⟩
  · intro e
    unfold ucmdUnauthorized
    simp [List.elem_iff]
  · intro hfil
    unfold detect_unauthorized_cmd
    rw [hfil]
  · intro u rest hfil
    unfold detect_unauthorized_cmd
    rw [hfil]
    refine ⟨rfl, ?_⟩
    intro a ha
    rw [List.mem_singleton] at ha
    subst ha
    exact ⟨rfl, rfl, rfl, rfl⟩

/-- Concrete events for the C5 witness: two cmd_exec events, one by an
allowed actor, one not. -/
def wEventC5a : Event :=
  { timestamp := 5, source := "plc-01", component := "edge", event := "cmd_exec",
    key := "cmd", value := "reboot", severity := "high", actor := "Mallory" }

def wEventC5b : Event :=
  { timestamp := 9, source := "plc-01", component := "edge", event := "cmd_exec",
    key := "cmd", value := "reboot", severity := "high", actor := "Alice" }

def wRuleC5 : Rule :=
  { id := "RULE-UCMD-001", name := "ucmd", threatType := "integrity_attack",
    matchEvent := "cmd_exec", matchActorNotIn := ["alice", "operator"] }

/-- C5 witness: at the concrete input the detector emits exactly one alert. -/
theorem C5_unauthorized_cmd_witness :
    (detect_unauthorized_cmd [wEventC5a, wEventC5b] wRuleC5 0).length = 1 :=
  ((C5_unauthorized_cmd [wEventC5a, wEventC5b] wRuleC5 0).2.2 wEventC5a []
    (by with_unfolding_all decide)).1

/-! ## C10 — brute force: empty IP partitions under "unknown" -/

theorem groupByKey_const [DecidableEq κ] (key : α → κ) (k : κ) (l : List α)
    (h : ∀ x ∈ l, key x = k) :
    groupByKey key l = if l.isEmpty then [] else [(k, l)] := by
  have hstep : ∀ (xs : List α) (g : List α), (∀ x ∈ xs, key x = k) →
      xs.foldl (fun acc x => addToGroups (key x) x acc) [(k, g)] = [(k, g ++ xs)] := by
    intro xs
    induction xs with
    | nil => intro g _; simp
    | cons y ys ih =>
      intro g hy
      simp only [List.foldl_cons]
      rw [hy y (by simp)]
      have : addToGroups k y [(k, g)] = [(k, g ++ [y])] := by
        simp [addToGroups]
      rw [this, ih (g ++ [y]) (fun x hx => hy x (by simp [hx]))]
      simp
  cases l with
  | nil => rfl
  | cons x xs =>
    unfold groupByKey
    simp only [List.foldl_cons, List.isEmpty_cons, if_false]
    rw [h x (by simp)]
    have h0 : addToGroups k x ([] : List (κ × List α)) = [(k, [x])] := rfl
    rw [h0, hstep xs [x] (fun y hy => h y (by simp [hy]))]
    simp

/-- C10: every auth_failure event with an empty ip is keyed under the
literal ip "unknown"; hence all empty-ip events against one source form a
single partition holding all of them (counted together toward the
threshold), and any alert emitted for it describes the IP as "unknown". -/
theorem C10_brute_force_unknown_ip (evts : List Event) (rule : Rule) (window : ℚ)
    (threshold : ℤ) (counter : ℕ) (s : String)
    (hip : ∀ e ∈ evts, e.ip = "") (hsrc : ∀ e ∈ evts, e.source = s) :
    (∀ e : Event, e.ip = "" → bfKey e = ("unknown", e.source)) ∧
    groupByKey bfKey evts = (if evts.isEmpty then [] else [(("unknown", s), evts)]) ∧
    (∀ a ∈ detect_brute_force evts rule window threshold counter,
      a.source = s ∧
      a.description = "Brute-force: " ++ toString a.eventCount
        ++ " auth failures from " ++ ("unknown") ++ " to " ++ s
        ++ " within " ++ fmtQ0 window ++ "s") := by
  have hkey : ∀ e ∈ evts, bfKey e = ("unknown", s) := by
    intro e he
    unfold bfKey
    rw [hip e he, hsrc e he]
    rfl
  have hgroups := groupByKey_const bfKey (("unknown", s)) evts hkey
  refine ⟨?_, hgroups, ?_⟩
  · intro e he
    unfold bfKey
    rw [he]
    rfl
  · intro a ha
    unfold detect_brute_force at ha
    rw [hgroups] at ha
    cases hempty : evts.isEmpty
    · rw [hempty] at ha
      simp only [Bool.false_eq_true, if_false] at ha
      unfold foldAlertGroups at ha
      simp only [List.foldl_cons, List.foldl_nil] at ha
      cases hsw : slideWindow window threshold [] (stableSort tsLe evts) with
      | none =>
        rw [hsw] at ha
        simp at ha
      | some buf =>
        rw [hsw] at ha
        simp only [List.nil_append, List.mem_singleton] at ha
        subst ha
        exact ⟨rfl, rfl⟩
    · rw [hempty] at ha
      simp only [if_true] at ha
      unfold foldAlertGroups at ha
      simp at ha

/-- Concrete empty-ip events for the C10 witness. -/
def wEventC10a : Event :=
  { timestamp := 0, source := "api-gw-01", component := "api",
    event := "auth_failure", key := "", value := "", severity := "medium" }

def wEventC10b : Event :=
  { timestamp := 3, source := "api-gw-01", component := "api",
    event := "auth_failure", key := "", value := "", severity := "medium" }

/-- C10 witness: the two empty-ip events form a single "unknown"-keyed
partition holding both. -/
theorem C10_brute_force_unknown_ip_witness :
    groupByKey bfKey [wEventC10a, wEventC10b]
      = [(("unknown", "api-gw-01"), [wEventC10a, wEventC10b])] :=
  (C10_brute_force_unknown_ip [wEventC10a, wEventC10b]
    { id := "RULE-BF-001", name := "bf", threatType := "credential_attack" }
    60 5 0 "api-gw-01"
    (by intro e he; fin_cases he <;> rfl)
    (by intro e he; fin_cases he <;> rfl)).2.1

/-! ## C4 — DDoS escalation on service impact -/

theorem mem_foldAlertGroups (f : ℕ → κ × List Event → Option Alert) (counter : ℕ)
    (groups : List (κ × List Event)) (a : Alert)
    (ha : a ∈ foldAlertGroups f counter groups) :
    ∃ cnt g, g ∈ groups ∧ f cnt g = some a := by
  suffices h : ∀ (gs : List (κ × List Event)) (acc : List Alert × ℕ),
      a ∈ (gs.foldl (fun acc g =>
        match f acc.2 g with
        | none => acc
        | some b => (acc.1 ++ [b], acc.2 + 1)) acc).1 →
      a ∈ acc.1 ∨ ∃ cnt g, g ∈ gs ∧ f cnt g = some a by
    rcases h groups ([], counter) ha with h0 | h0
    · simp at h0
    · exact h0
  intro gs
  induction gs with
  | nil => intro acc h; exact Or.inl h
  | cons g gs ih =>
    intro acc h
    simp only [List.foldl_cons] at h
    cases hf : f acc.2 g with
    | none =>
      rw [hf] at h
      rcases ih acc h with h0 | ⟨cnt, g', hg', hf'⟩
      · exact Or.inl h0
      · exact Or.inr ⟨cnt, g', by simp [hg'], hf'⟩
    | some b =>
      rw [hf] at h
      rcases ih (acc.1 ++ [b], acc.2 + 1) h with h0 | ⟨cnt, g', hg', hf'⟩
      · rcases List.mem_append.mp h0 with h1 | h1
        · exact Or.inl h1
        · rw [List.mem_singleton] at h1
          subst h1
          exact Or.inr ⟨acc.2, g, by simp, hf⟩
      · exact Or.inr ⟨cnt, g', by simp [hg'], hf'⟩

/-- The severity and confidence of every alert emitted by `detect_ddos` are
determined by the `svc_impact` escalation check evaluated at the alert's own
source and timestamp (the buffer's first event's timestamp). -/
theorem detect_ddos_severity_confidence (rate_events : List Event) (rule : Rule)
    (window : ℚ) (threshold : ℤ) (all_events : List Event) (counter : ℕ) :
    ∀ a ∈ detect_ddos rate_events rule window threshold all_events counter,
      (ddosSvcImpact all_events a.source a.timestamp = true →
        a.severity = "critical" ∧ a.confidence = 98/100) ∧
      (ddosSvcImpact all_events a.source a.timestamp = false →
        a.severity = rule.severity.getD ("critical") ∧
        a.confidence = rule.confidence.getD (90/100)) := by
  intro a ha
  unfold detect_ddos at ha
  obtain ⟨cnt, g, _, hf⟩ := mem_foldAlertGroups _ _ _ a ha
  simp only [] at hf
  cases hsw : slideWindow window threshold [] (stableSort tsLe g.2) with
  | none =>
    rw [hsw] at hf
    simp at hf
  | some buf =>
    rw [hsw] at hf
    simp only [Option.some.injEq] at hf
    have hsev2 : a.severity =
        (if ddosSvcImpact all_events g.1 (buf.headD dummyEvent).timestamp
          then "critical" else rule.severity.getD ("critical")) := by rw [← hf]
    have hconf2 : a.confidence =
        (if ddosSvcImpact all_events g.1 (buf.headD dummyEvent).timestamp
          then 98/100 else rule.confidence.getD (90/100)) := by rw [← hf]
    have hsrc2 : a.source = g.1 := by rw [← hf]
    have hts2 : a.timestamp = (buf.headD dummyEvent).timestamp := by rw [← hf]
    rw [hsrc2, hts2, hsev2, hconf2]
    constructor
    · intro h
      rw [h]
      simp
    · intro h
      rw [h]
      simp

theorem filter_not_isEmpty_iff (l : List α) (p : α → Bool) :
    ((!(l.filter p).isEmpty) = true) ↔ ∃ x ∈ l, p x = true := by
  induction l with
  | nil => simp
  | cons x xs ih =>
    by_cases hp : p x
    · constructor
      · intro _
        exact ⟨x, by simp, hp⟩
      · intro _
        simp [List.filter_cons, hp]
    · rw [List.filter_cons, if_neg (by simpa using hp)]
      rw [ih]
      constructor
      · rintro ⟨y, hy, hpy⟩
        exact ⟨y, by simp [hy], hpy⟩
      · rintro ⟨y, hy, hpy⟩
        rcases List.mem_cons.mp hy with h | h
        · subst h
          exact absurd hpy (by simpa using hp)
        · exact ⟨y, h, hpy⟩

/-- The `svc_impact` check of `_detect_ddos`, spelled out: it demands a
`service_status` event on the same source whose key is "status", whose value
is degraded or down, and whose timestamp lies 0–120 s after `t0`. -/
theorem ddosSvcImpact_iff (all_events : List Event) (src : String) (t0 : ℚ) :
    ddosSvcImpact all_events src t0 = true ↔
      ∃ s ∈ all_events, s.event = "service_status" ∧ s.source = src ∧
        s.key = "status" ∧ (s.value = "degraded" ∨ s.value = "down") ∧
        0 ≤ s.timestamp - t0 ∧ s.timestamp - t0 ≤ 120 := by
  unfold ddosSvcImpact
  rw [filter_not_isEmpty_iff]
  constructor
  · rintro ⟨s, hs, hp⟩
    refine ⟨s, hs, ?_⟩
    simp only [Bool.and_eq_true, Bool.or_eq_true, beq_iff_eq,
      decide_eq_true_eq] at hp
    obtain ⟨⟨⟨⟨⟨h1, h2⟩, h3⟩, h4⟩, h5⟩, h6⟩ := hp
    exact ⟨h1, h2, h3, h4, h5, h6⟩
  · rintro ⟨s, hs, h1, h2, h3, h4, h5, h6⟩
    refine ⟨s, hs, ?_⟩
    simp only [Bool.and_eq_true, Bool.or_eq_true, beq_iff_eq,
      decide_eq_true_eq]
    exact ⟨⟨⟨⟨⟨h1, h2⟩, h3⟩, h4⟩, h5⟩, h6⟩

/-- C4 (amended): every alert emitted by the DDoS rule carries severity
critical and confidence 0.98 when `all_events` holds a correlated
`service_status` event whose key is "status" and whose value is degraded or
down, on the alert's source, 0–120 s after the alert's timestamp (the
buffer's first event); otherwise it carries the rule's declared severity
and confidence.  Two corrections are forced by the code: the escalation
check also requires `key = "status"` (a degraded/down `service_status`
under any other key does not escalate), and the claim's "only if" direction
fails when the rule itself declares severity critical and confidence 0.98
(see the counterexample for both). -/
theorem C4_ddos_escalation (rate_events : List Event) (rule : Rule) (window : ℚ)
    (threshold : ℤ) (all_events : List Event) (counter : ℕ) :
    ∀ a ∈ detect_ddos rate_events rule window threshold all_events counter,
      ((∃ s ∈ all_events, s.event = "service_status" ∧ s.source = a.source ∧
          s.key = "status" ∧ (s.value = "degraded" ∨ s.value = "down") ∧
          0 ≤ s.timestamp - a.timestamp ∧ s.timestamp - a.timestamp ≤ 120) →
        a.severity = "critical" ∧ a.confidence = 98/100) ∧
      (¬ (∃ s ∈ all_events, s.event = "service_status" ∧ s.source = a.source ∧
          s.key = "status" ∧ (s.value = "degraded" ∨ s.value = "down") ∧
          0 ≤ s.timestamp - a.timestamp ∧ s.timestamp - a.timestamp ≤ 120) →
        a.severity = rule.severity.getD ("critical") ∧
        a.confidence = rule.confidence.getD (90/100)) := by
  intro a ha
  have hfields := detect_ddos_severity_confidence rate_events rule window
    threshold all_events counter a ha
  have hch := ddosSvcImpact_iff all_events a.source a.timestamp
  constructor
  · intro hex
    exact hfields.1 (hch.mpr hex)
  · intro hnex
    refine hfields.2 ?_
    rcases hb : ddosSvcImpact all_events a.source a.timestamp with _ | _
    · rfl
    · exact absurd (hch.mp hb) hnex

/-- A DDoS rule that itself declares severity critical and confidence 0.98. -/
def cexRuleC4 : Rule :=
  { id := "RULE-DDOS-001", name := "dd", threatType := "availability_attack",
    matchEvent := "rate_exceeded", windowSec := some 60, threshold := some 2,
    severity := some "critical", confidence := some (98/100) }

/-- A DDoS rule declaring the non-escalated severity high / confidence 0.90. -/
def cexRuleC4hi : Rule :=
  { id := "RULE-DDOS-001", name := "dd", threatType := "availability_attack",
    matchEvent := "rate_exceeded", windowSec := some 60, threshold := some 2,
    severity := some "high", confidence := some (90/100) }

def cexEventC4a : Event :=
  { timestamp := 0, source := "api-gw", component := "api",
    event := "rate_exceeded", key := "", value := "", severity := "high" }

def cexEventC4b : Event :=
  { timestamp := 10, source := "api-gw", component := "api",
    event := "rate_exceeded", key := "", value := "", severity := "high" }

/-- A degraded `service_status` event on the same source, 30 s after the
buffer's first event, but keyed under "" rather than "status". -/
def cexEventC4svc : Event :=
  { timestamp := 30, source := "api-gw", component := "api",
    event := "service_status", key := "", value := "degraded",
    severity := "high" }

/-- C4 counterexample, refuting the claim in both directions at concrete
inputs.  First: with no `service_status` event at all, the emitted alert
still has severity critical and confidence 0.98 (both declared on the
rule), refuting the "only if".  Second: with a degraded `service_status`
event on the same source 30 s after the buffer's first event — satisfying
the claim's stated condition, which does not mention the key — the code
does not escalate (the filter at detector.py:194 also requires
`key = "status"`), and the alert keeps the declared high/0.90, refuting the
"if". -/
theorem C4_ddos_escalation_counterexample :
    (∃ a ∈ detect [cexEventC4a, cexEventC4b] { rules := [cexRuleC4] } [],
      a.severity = "critical" ∧ a.confidence = 98/100 ∧
      ¬ (∃ s ∈ [cexEventC4a, cexEventC4b], s.event = "service_status" ∧
          s.source = a.source ∧ (s.value = "degraded" ∨ s.value = "down") ∧
          0 ≤ s.timestamp - a.timestamp ∧ s.timestamp - a.timestamp ≤ 120)) ∧
    (∃ a ∈ detect [cexEventC4a, cexEventC4b, cexEventC4svc]
        { rules := [cexRuleC4hi] } [],
      (∃ s ∈ [cexEventC4a, cexEventC4b, cexEventC4svc],
        s.event = "service_status" ∧ s.source = a.source ∧
        (s.value = "degraded" ∨ s.value = "down") ∧
        0 ≤ s.timestamp - a.timestamp ∧ s.timestamp - a.timestamp ≤ 120) ∧
      ¬ (a.severity = "critical" ∧ a.confidence = 98/100) ∧
      a.severity = "high" ∧ a.confidence = 90/100) := by
  constructor
  · with_unfolding_all decide
  · with_unfolding_all decide

/-- The concrete alert the C4 witness instantiates the theorem at. -/
def wAlertC4 : Alert :=
  (detect_ddos [cexEventC4a, cexEventC4b] cexRuleC4 60 2
    [cexEventC4a, cexEventC4b] 0).headD dummyAlert

/-- C4 witness: the conditional assignment at a concrete emitted alert. -/
theorem C4_ddos_escalation_witness :
    ((∃ s ∈ [cexEventC4a, cexEventC4b], s.event = "service_status" ∧
        s.source = wAlertC4.source ∧ s.key = "status" ∧
        (s.value = "degraded" ∨ s.value = "down") ∧
        0 ≤ s.timestamp - wAlertC4.timestamp ∧
        s.timestamp - wAlertC4.timestamp ≤ 120) →
      wAlertC4.severity = "critical" ∧ wAlertC4.confidence = 98/100) ∧
    (¬ (∃ s ∈ [cexEventC4a, cexEventC4b], s.event = "service_status" ∧
        s.source = wAlertC4.source ∧ s.key = "status" ∧
        (s.value = "degraded" ∨ s.value = "down") ∧
        0 ≤ s.timestamp - wAlertC4.timestamp ∧
        s.timestamp - wAlertC4.timestamp ≤ 120) →
      wAlertC4.severity = cexRuleC4.severity.getD ("critical") ∧
      wAlertC4.confidence = cexRuleC4.confidence.getD (90/100)) :=
  C4_ddos_escalation [cexEventC4a, cexEventC4b] cexRuleC4 60 2
    [cexEventC4a, cexEventC4b] 0 wAlertC4
    (by with_unfolding_all decide)

/-! ## C9 — unknown policy behaves as the all-ones baseline -/

theorem lookup_mem [BEq α] [LawfulBEq α] {k : α} {v : β} {l : List (α × β)}
    (h : List.lookup k l = some v) : (k, v) ∈ l := by
  induction l with
  | nil => simp [List.lookup] at h
  | cons p t ih =>
    obtain ⟨k', v'⟩ := p
    by_cases hk : k == k'
    · simp only [List.lookup, hk] at h
      have hkk : k = k' := eq_of_beq hk
      have hvv : v' = v := by injection h
      rw [← hkk, hvv] at *
      simp
    · simp only [List.lookup, hk] at h
      exact List.mem_cons_of_mem _ (ih h)

theorem allOnes_modifier (pm : PM) (h : ∀ e ∈ pm, ∀ kv ∈ e.2, kv.2 = 1) :
    ∀ t k, modifier_of pm t k = 1 := by
  intro t k
  unfold modifier_of getQ
  cases hl : List.lookup t pm with
  | none => rfl
  | some md =>
    simp only [Option.getD_some]
    cases hk : List.lookup k md with
    | none => rfl
    | some q =>
      have hq := h (t, md) (lookup_mem hl) (k, q) (lookup_mem hk)
      simpa using hq

theorem foldl_congr_fun {f g : β → α → β} (h : ∀ b a, f b a = g b a) :
    ∀ (l : List α) (b : β), l.foldl f b = l.foldl g b := by
  intro l
  induction l with
  | nil => intro b; rfl
  | cons x xs ih =>
    intro b
    simp only [List.foldl_cons]
    rw [h b x, ih]

/-- `detect` reads the policy modifiers only through the per-rule window and
threshold multipliers. -/
theorem detect_congr (events : List Event) (rules_cfg : RulesCfg) (pm1 pm2 : PM)
    (hw : ∀ t, modifier_of pm1 t ("window_multiplier")
      = modifier_of pm2 t ("window_multiplier"))
    (ht : ∀ t, modifier_of pm1 t ("threshold_multiplier")
      = modifier_of pm2 t ("threshold_multiplier")) :
    detect events rules_cfg pm1 = detect events rules_cfg pm2 := by
  have hstep : ∀ acc rule, detectStep events pm1 acc rule
      = detectStep events pm2 acc rule := by
    intro acc rule
    have hwr : ruleWindow pm1 rule = ruleWindow pm2 rule := by
      unfold ruleWindow
      rw [hw]
    have htr : ruleThreshold pm1 rule = ruleThreshold pm2 rule := by
      unfold ruleThreshold
      rw [ht]
    simp only [detectStep]
    rw [hwr, htr]
  unfold detect
  rw [foldl_congr_fun hstep rules_cfg.rules ([], 0)]

/-- `_build_incident` reads the policy modifiers only through the mttd, mttr
and impact multipliers of the group's threat type. -/
theorem build_incident_congr (group : List Alert) (idx : ℕ) (p : String)
    (pm1 pm2 : PM)
    (hd : ∀ t, modifier_of pm1 t ("mttd_multiplier")
      = modifier_of pm2 t ("mttd_multiplier"))
    (hr : ∀ t, modifier_of pm1 t ("mttr_multiplier")
      = modifier_of pm2 t ("mttr_multiplier"))
    (hi : ∀ t, modifier_of pm1 t ("impact_multiplier")
      = modifier_of pm2 t ("impact_multiplier")) :
    build_incident group idx p pm1 = build_incident group idx p pm2 := by
  have h1 : mttd_of pm1 (group.headD dummyAlert).threatType
      = mttd_of pm2 (group.headD dummyAlert).threatType := by
    unfold mttd_of
    rw [hd]
  have h2 : mttr_of pm1 (group.headD dummyAlert).threatType
      = mttr_of pm2 (group.headD dummyAlert).threatType := by
    unfold mttr_of
    rw [hr]
  simp only [build_incident]
  rw [h1, h2, hi]

/-- `correlate` reads the policy modifiers only through `_build_incident`. -/
theorem correlate_congr (alerts : List Alert) (p : String) (pm1 pm2 : PM) (mw : ℚ)
    (hd : ∀ t, modifier_of pm1 t ("mttd_multiplier")
      = modifier_of pm2 t ("mttd_multiplier"))
    (hr : ∀ t, modifier_of pm1 t ("mttr_multiplier")
      = modifier_of pm2 t ("mttr_multiplier"))
    (hi : ∀ t, modifier_of pm1 t ("impact_multiplier")
      = modifier_of pm2 t ("impact_multiplier")) :
    correlate alerts p pm1 mw = correlate alerts p pm2 mw := by
  have hmap : (corGroupsOf alerts mw).enum.map
        (fun q => build_incident (stableSort alertTsLe q.2) (q.1 + 1) p pm1)
      = (corGroupsOf alerts mw).enum.map
        (fun q => build_incident (stableSort alertTsLe q.2) (q.1 + 1) p pm2) :=
    List.map_congr_left (fun q _ => build_incident_congr _ _ _ _ _ hd hr hi)
  unfold correlate
  rw [hmap]

/-- C9: for an unknown policy name `get_modifiers` returns the empty
modifier map, and running `detect` and `correlate` with that empty map gives
exactly the same alerts and incidents as an explicit modifier map whose
every multiplier is 1.0. -/
theorem C9_unknown_policy_baseline (cfg : PoliciesCfg) (nm : String)
    (events : List Event) (rules_cfg : RulesCfg) (alerts : List Alert)
    (p : String) (mw : ℚ) (pm2 : PM)
    (h1 : List.lookup nm cfg.policies = none)
    (h2 : ∀ e ∈ pm2, ∀ kv ∈ e.2, kv.2 = 1) :
    get_modifiers cfg nm = [] ∧
    detect events rules_cfg (get_modifiers cfg nm) = detect events rules_cfg pm2 ∧
    correlate alerts p (get_modifiers cfg nm) mw = correlate alerts p pm2 mw := by
  have hmod : get_modifiers cfg nm = [] := by
    unfold get_modifiers
    rw [h1]
  have hones := allOnes_modifier pm2 h2
  have hnil : ∀ t k, modifier_of ([] : PM) t k = 1 := fun t k => rfl
  refine ⟨hmod, ?_, ?_⟩
  · rw [hmod]
    exact detect_congr events rules_cfg [] pm2
      (fun t => by rw [hnil, hones]) (fun t => by rw [hnil, hones])
  · rw [hmod]
    exact correlate_congr alerts p [] pm2 mw
      (fun t => by rw [hnil, hones]) (fun t => by rw [hnil, hones])
      (fun t => by rw [hnil, hones])

/-- A concrete policies config for the C9 witness, not containing "nope". -/
def wCfgC9 : PoliciesCfg :=
  { policies := [("baseline", { modifiers := [] }),
      ("standard", { modifiers := [("credential_attack", [("mttd_multiplier", 1/2)])] })] }

/-- An explicit all-ones modifier map for the C9 witness. -/
def wPmC9 : PM :=
  [("credential_attack",
    [("window_multiplier", 1), ("threshold_multiplier", 1), ("mttd_multiplier", 1),
     ("mttr_multiplier", 1), ("impact_multiplier", 1)]),
   ("outage", [("mttd_multiplier", 1)])]

/-- C9 witness: at a concrete unknown name and a concrete all-ones map, the
modifiers are empty and detect/correlate agree. -/
theorem C9_unknown_policy_baseline_witness :
    get_modifiers wCfgC9 "nope" = [] ∧
    detect [wEventC10a] { rules := [cexRuleC4] } (get_modifiers wCfgC9 "nope")
      = detect [wEventC10a] { rules := [cexRuleC4] } wPmC9 ∧
    correlate [wAlertC3] "pol" (get_modifiers wCfgC9 "nope") 120
      = correlate [wAlertC3] "pol" wPmC9 120 :=
  C9_unknown_policy_baseline wCfgC9 "nope" [wEventC10a] { rules := [cexRuleC4] }
    [wAlertC3] "pol" 120 wPmC9
    (by with_unfolding_all decide)
    (by with_unfolding_all decide)

/-! ## C7 — monotonicity of mean MTTD/MTTR over policy strictness -/

theorem base_timing_nonneg (t : String) :
    0 ≤ ((List.lookup t base_timing).getD (30, 120)).1 ∧
    0 ≤ ((List.lookup t base_timing).getD (30, 120)).2 := by
  cases hl : List.lookup t base_timing with
  | none => simp
  | some v =>
    have hmem := lookup_mem hl
    simp only [base_timing, List.mem_cons, List.not_mem_nil, or_false,
      Prod.mk.injEq] at hmem
    rcases hmem with ⟨_, hv⟩ | ⟨_, hv⟩ | ⟨_, hv⟩ | ⟨_, hv⟩ <;> subst hv <;> simp

theorem lookup_cons_ne {β : Type _} (t k : String) (v : β) (l : List (String × β))
    (h : t ≠ k) : List.lookup t ((k, v) :: l) = List.lookup t l := by
  simp only [List.lookup]
  rw [beq_eq_false_iff_ne.mpr h]

theorem mttd_of_mono (pm1 pm2 : PM) (t : String)
    (hd : modifier_of pm1 t ("mttd_multiplier") ≤ modifier_of pm2 t ("mttd_multiplier")) :
    mttd_of pm1 t ≤ mttd_of pm2 t := by
  unfold mttd_of
  exact mul_le_mul_of_nonneg_left hd (base_timing_nonneg t).1

theorem mttr_of_mono (pm1 pm2 : PM) (t : String)
    (hr : modifier_of pm1 t ("mttr_multiplier") ≤ modifier_of pm2 t ("mttr_multiplier")) :
    mttr_of pm1 t ≤ mttr_of pm2 t := by
  unfold mttr_of
  exact mul_le_mul_of_nonneg_left hr (base_timing_nonneg t).2

theorem build_incident_mttdSec (group : List Alert) (idx : ℕ) (p : String) (pm : PM) :
    (build_incident group idx p pm).mttdSec
      = roundTo 2 (mttd_of pm (group.headD dummyAlert).threatType) := rfl

theorem build_incident_mttrSec (group : List Alert) (idx : ℕ) (p : String) (pm : PM) :
    (build_incident group idx p pm).mttrSec
      = roundTo 2 (mttr_of pm (group.headD dummyAlert).threatType) := rfl

theorem correlate_length_congr (A : List Alert) (p1 p2 : String) (pm1 pm2 : PM) (mw : ℚ) :
    (correlate A p1 pm1 mw).length = (correlate A p2 pm2 mw).length := by
  unfold correlate
  by_cases hE : A.isEmpty = true
  · rw [if_pos hE, if_pos hE]
  · rw [if_neg hE, if_neg hE, length_stableSort, length_stableSort,
      List.length_map, List.length_map]

theorem correlate_map_sum_le (A : List Alert) (p1 p2 : String) (pm1 pm2 : PM) (mw : ℚ)
    (f : Incident → ℚ)
    (hf : ∀ g idx, f (build_incident g idx p1 pm1) ≤ f (build_incident g idx p2 pm2)) :
    ((correlate A p1 pm1 mw).map f).sum ≤ ((correlate A p2 pm2 mw).map f).sum := by
  unfold correlate
  by_cases hE : A.isEmpty = true
  · rw [if_pos hE, if_pos hE]
  · rw [if_neg hE, if_neg hE]
    rw [((stableSort_perm incStartLe _).map f).sum_eq,
      ((stableSort_perm incStartLe _).map f).sum_eq]
    rw [List.map_map, List.map_map]
    apply List.sum_le_sum
    intro q _
    exact hf (stableSort alertTsLe q.2) (q.1 + 1)

/-- C7 (amended): the claim holds once the two policies are additionally
required to agree on the detection-relevant window and threshold multipliers
(so both runs see the same alerts); with the mttd/mttr multipliers pointwise
`≤`, the mean MTTD and mean MTTR of the full detect–correlate–compute
pipeline are monotone.  Without that extra requirement the claim is false:
see the counterexample, where a threshold multiplier suppresses a
fast-detected incident under the stricter policy. -/
theorem C7_mean_mttd_mttr_monotone (events : List Event) (rules_cfg : RulesCfg)
    (p1 p2 n1 n2 : String) (mw h : ℚ) (pm1 pm2 : PM)
    (hw : ∀ t, modifier_of pm1 t ("window_multiplier")
      = modifier_of pm2 t ("window_multiplier"))
    (hth : ∀ t, modifier_of pm1 t ("threshold_multiplier")
      = modifier_of pm2 t ("threshold_multiplier"))
    (hd : ∀ t, modifier_of pm1 t ("mttd_multiplier")
      ≤ modifier_of pm2 t ("mttd_multiplier"))
    (hr : ∀ t, modifier_of pm1 t ("mttr_multiplier")
      ≤ modifier_of pm2 t ("mttr_multiplier")) :
    (compute (correlate (detect events rules_cfg pm1) p1 pm1 mw) n1 h).meanMttdMin
      ≤ (compute (correlate (detect events rules_cfg pm2) p2 pm2 mw) n2 h).meanMttdMin ∧
    (compute (correlate (detect events rules_cfg pm1) p1 pm1 mw) n1 h).meanMttrMin
      ≤ (compute (correlate (detect events rules_cfg pm2) p2 pm2 mw) n2 h).meanMttrMin := by
  have hA : detect events rules_cfg pm1 = detect events rules_cfg pm2 :=
    detect_congr events rules_cfg pm1 pm2 hw hth
  rw [hA]
  have hlen := correlate_length_congr (detect events rules_cfg pm2) p1 p2 pm1 pm2 mw
  have hmean : ∀ (f : Incident → ℚ),
      (∀ g idx, f (build_incident g idx p1 pm1) ≤ f (build_incident g idx p2 pm2)) →
      roundTo 2 (((correlate (detect events rules_cfg pm2) p1 pm1 mw).map f).sum
          / ((correlate (detect events rules_cfg pm2) p1 pm1 mw).length : ℚ) / 60)
        ≤ roundTo 2 (((correlate (detect events rules_cfg pm2) p2 pm2 mw).map f).sum
          / ((correlate (detect events rules_cfg pm2) p2 pm2 mw).length : ℚ) / 60) := by
    intro f hf
    have hsum := correlate_map_sum_le (detect events rules_cfg pm2) p1 p2 pm1 pm2 mw f hf
    rw [← hlen]
    apply roundTo_mono
    by_cases hn : ((correlate (detect events rules_cfg pm2) p1 pm1 mw).length : ℚ) = 0
    · rw [hn, div_zero, div_zero]
    · have hn' : (0 : ℚ) < ((correlate (detect events rules_cfg pm2) p1 pm1 mw).length : ℚ) := by
        have : (0 : ℚ) ≤ ((correlate (detect events rules_cfg pm2) p1 pm1 mw).length : ℚ) := by
          positivity
        rcases lt_or_eq_of_le this with h0 | h0
        · exact h0
        · exact absurd h0.symm hn
      gcongr
  constructor
  · rw [compute_meanMttdMin, compute_meanMttdMin]
    apply hmean (fun i => i.mttdSec)
    intro g idx
    rw [build_incident_mttdSec, build_incident_mttdSec]
    exact roundTo_mono 2 (mttd_of_mono pm1 pm2 _ (hd _))
  · rw [compute_meanMttrMin, compute_meanMttrMin]
    apply hmean (fun i => i.mttrSec)
    intro g idx
    rw [build_incident_mttrSec, build_incident_mttrSec]
    exact roundTo_mono 2 (mttr_of_mono pm1 pm2 _ (hr _))

/-- Events for the C7 counterexample: one auth_failure (credential_attack,
base mttd 30 s) and one service_status=down (outage, base mttd 10 s). -/
def cexEventC7a : Event :=
  { timestamp := 0, source := "gw", component := "api", event := "auth_failure",
    key := "", value := "", severity := "high", ip := "1.2.3.4" }

def cexEventC7b : Event :=
  { timestamp := 0, source := "db01", component := "db", event := "service_status",
    key := "status", value := "down", severity := "high" }

def cexRuleC7bf : Rule :=
  { id := "RULE-BF-001", name := "bf", threatType := "credential_attack",
    matchEvent := "auth_failure", windowSec := some 60, threshold := some 1 }

def cexRuleC7out : Rule :=
  { id := "RULE-OUT-001", name := "out", threatType := "outage",
    matchEvent := "service_status", matchValues := ["down"], windowSec := some 60,
    threshold := some 1 }

def cexCfgC7 : RulesCfg := { rules := [cexRuleC7bf, cexRuleC7out] }

/-- The stricter policy of the counterexample: identical mttd/mttr
multipliers (all 1.0) but a threshold multiplier of 10 on outage rules. -/
def cexPmC7strict : PM := [("outage", [("threshold_multiplier", 10)])]

def cexPmC7base : PM := []

/-- C7 counterexample: the two policies have pointwise equal (hence `≤`)
mttd and mttr multipliers, yet the stricter policy's mean MTTD (0.5 min,
only the credential incident detected) strictly exceeds the baseline's
(0.33 min over credential + outage incidents): the claimed inequality
`mean_mttd_min(P') ≤ mean_mttd_min(P)` fails. -/
theorem C7_monotonicity_counterexample :
    (∀ t : String,
      modifier_of cexPmC7strict t ("mttd_multiplier")
        ≤ modifier_of cexPmC7base t ("mttd_multiplier") ∧
      modifier_of cexPmC7strict t ("mttr_multiplier")
        ≤ modifier_of cexPmC7base t ("mttr_multiplier")) ∧
    (compute (correlate (detect [cexEventC7a, cexEventC7b] cexCfgC7 cexPmC7base)
        "P" cexPmC7base 120) "P" 3600).meanMttdMin
      < (compute (correlate (detect [cexEventC7a, cexEventC7b] cexCfgC7 cexPmC7strict)
        "P" cexPmC7strict 120) "P" 3600).meanMttdMin := by
  constructor
  · intro t
    by_cases ht : t = "outage"
    · subst ht
      constructor <;> with_unfolding_all decide
    · have h1 : List.lookup t cexPmC7strict = none := by
        simp [cexPmC7strict, List.lookup_cons, beq_false_of_ne ht]
      have h2 : ∀ k, modifier_of cexPmC7strict t k = 1 := by
        intro k
        unfold modifier_of getQ
        rw [h1]
        rfl
      have h3 : ∀ k, modifier_of cexPmC7base t k = 1 := fun k => rfl
      rw [h2, h2, h3, h3]
      exact ⟨le_refl 1, le_refl 1⟩
  · with_unfolding_all decide

/-- The non-trivial policy pair for the C7 witness: halved credential-attack
mttd/mttr multipliers against the baseline. -/
def wPmC7fast : PM :=
  [("credential_attack", [("mttd_multiplier", 1/2), ("mttr_multiplier", 1/2)])]

theorem wPmC7fast_modifier (t k : String) (hk : k ≠ "mttd_multiplier")
    (hk2 : k ≠ "mttr_multiplier") : modifier_of wPmC7fast t k = 1 := by
  by_cases ht : t = "credential_attack"
  · subst ht
    unfold modifier_of getQ wPmC7fast
    simp [List.lookup_cons, beq_false_of_ne hk, beq_false_of_ne hk2]
  · have h1 : List.lookup t wPmC7fast = none := by
      simp [wPmC7fast, List.lookup_cons, beq_false_of_ne ht]
    unfold modifier_of getQ
    rw [h1]
    rfl

/-- C7 witness: the amended monotonicity at a concrete input, with the
halved-multiplier policy against the baseline. -/
theorem C7_mean_mttd_mttr_monotone_witness :
    (compute (correlate (detect [cexEventC7a, cexEventC7b] cexCfgC7 wPmC7fast)
        "F" wPmC7fast 120) "F" 3600).meanMttdMin
      ≤ (compute (correlate (detect [cexEventC7a, cexEventC7b] cexCfgC7 cexPmC7base)
        "B" cexPmC7base 120) "B" 3600).meanMttdMin ∧
    (compute (correlate (detect [cexEventC7a, cexEventC7b] cexCfgC7 wPmC7fast)
        "F" wPmC7fast 120) "F" 3600).meanMttrMin
      ≤ (compute (correlate (detect [cexEventC7a, cexEventC7b] cexCfgC7 cexPmC7base)
        "B" cexPmC7base 120) "B" 3600).meanMttrMin :=
  C7_mean_mttd_mttr_monotone [cexEventC7a, cexEventC7b] cexCfgC7 "F" "B" "F" "B"
    120 3600 wPmC7fast cexPmC7base
    (fun t => by
      rw [wPmC7fast_modifier t ("window_multiplier") (by decide) (by decide)]
      rfl)
    (fun t => by
      rw [wPmC7fast_modifier t ("threshold_multiplier") (by decide) (by decide)]
      rfl)
    (fun t => by
      by_cases ht : t = "credential_attack"
      · subst ht
        with_unfolding_all decide
      · have h1 : List.lookup t wPmC7fast = none := by
          simp [wPmC7fast, List.lookup_cons, beq_false_of_ne ht]
        have h2 : modifier_of wPmC7fast t ("mttd_multiplier") = 1 := by
          unfold modifier_of getQ
          rw [h1]
          rfl
        rw [h2]
        exact le_refl 1)
    (fun t => by
      by_cases ht : t = "credential_attack"
      · subst ht
        with_unfolding_all decide
      · have h1 : List.lookup t wPmC7fast = none := by
          simp [wPmC7fast, List.lookup_cons, beq_false_of_ne ht]
        have h2 : modifier_of wPmC7fast t ("mttr_multiplier") = 1 := by
          unfold modifier_of getQ
          rw [h1]
          rfl
        rw [h2]
        exact le_refl 1)

end SmartEnergy
